import Mathlib

/-!
# News HTTP delivery layer (`domain/news/delivery/http/news_handler.go`)

A shallow embedding of the request handlers of the news API and of the parts of
the Go standard library they call (`strings.Split`, `strconv.Atoi`,
`errors.Wrap`), followed by theorems about parameter parsing, the response
envelope and the calls made to the use-case collaborator.

Conventions of the embedding:

* a Go `string` is a Lean `String`; byte-wise loops of the library run over its
  characters, and `len` is the UTF-8 byte length (`byteLen`);
* Go `int` is 64 bits wide (`intSize`); `int`, `int64` and `uint64` values are
  `Int`/`Nat` with explicit wrap-around where the library can overflow;
* a Go slice or pointer that may be `nil` is an `Option` (`none` is `nil`);
* a handler run is a value of `Run`: the trace of collaborator and closure
  invocations together with what the handler did at the end (one `c.JSON`
  response, or a run-time fault).
-/

set_option autoImplicit false

namespace NewsHandler

/-! ## Go runtime: integers and errors -/

/-- Width of Go's `int` on the modelled platform (`strconv.IntSize`). -/
def intSize : Nat := 64

/-- Smallest value of a signed `intSize`-bit integer. -/
def minInt : Int := -(2 : Int) ^ (intSize - 1)

/-- Largest value of a signed `intSize`-bit integer. -/
def maxInt : Int := (2 : Int) ^ (intSize - 1) - 1

/-- Largest `uint64`. -/
def maxUint64 : Nat := 2 ^ 64 - 1

/-- Two's-complement reading of an integer as a signed 64-bit value: the Go
conversions `int64(x)` and `int(x)`, and the result of signed arithmetic. -/
def toInt64 (x : Int) : Int := (x + 2 ^ 63) % 2 ^ 64 - 2 ^ 63

/-- Unsigned 64-bit wrap-around (`uint64` arithmetic). -/
def toUint64 (x : Nat) : Nat := x % 2 ^ 64

/-- The two sentinel causes of a `*strconv.NumError`. -/
inductive NumErrKind where
  /-- `strconv.ErrSyntax` -/
  | invalidSyn
  /-- `strconv.ErrRange` -/
  | outOfRange
  deriving DecidableEq, Repr

/-- Text of the sentinel errors. -/
def NumErrKind.text : NumErrKind → String
  | .invalidSyn => "invalid syntax"
  | .outOfRange => "value out of range"

/-- Go `error` values met by the handlers. `numError` is `*strconv.NumError`,
`wrap` is what `errors.Wrap(cause, msg)` returns, and `app` stands for any
other error value (a binder or collaborator error): an uninterpreted kind tag
and the text its `Error()` method returns. -/
inductive GoError where
  | numError (Func : String) (Num : String) (Err : NumErrKind)
  | wrap (cause : GoError) (msg : String)
  | app (kind : Nat) (msg : String)
  deriving DecidableEq, Repr

/-- The `Error()` method. `quote` is `strconv.Quote`, whose Unicode tables are
not part of the repository; it is taken as a parameter.
`NumError.Error` is `"strconv." + Func + ": parsing " + Quote(Num) + ": " + Err`
and a wrapped error prints `msg + ": " + cause.Error()`. -/
def GoError.Error (quote : String → String) : GoError → String
  | .numError f num k => "strconv." ++ f ++ ": parsing " ++ quote num ++ ": " ++ k.text
  | .wrap cause msg => msg ++ ": " ++ GoError.Error quote cause
  | .app _ msg => msg

/-- The function `syntaxError(fn, str)` of package strconv. -/
def syntaxError (fn : String) (str : String) : GoError :=
  .numError fn str .invalidSyn

/-- The function `rangeError(fn, str)` of package strconv. -/
def rangeError (fn : String) (str : String) : GoError :=
  .numError fn str .outOfRange

/-! ## `strings.Split` with a one-byte separator -/

/-- The function `strings.Split(s, sep)` for a separator of one ASCII character, on the
character list of `s`: the pieces between consecutive separators, so that
`n` separators give `n + 1` pieces and the empty string gives one empty
piece. -/
def splitChars (sep : Char) : List Char → List (List Char)
  | [] => [[]]
  | c :: cs =>
    if c = sep then [] :: splitChars sep cs
    else
      match splitChars sep cs with
      | [] => [[c]]
      | seg :: rest => (c :: seg) :: rest

/-- The call `strings.Split(s, sep)` on strings, for a separator of one ASCII
character. -/
def Split (s : String) (sep : Char) : List String :=
  (splitChars sep s.data).map String.mk

/-! ## `strconv.Atoi` -/

/-- The length `len(s)`: the number of bytes of the UTF-8 encoding. -/
def byteLen : List Char → Nat
  | [] => 0
  | c :: cs => c.utf8Size + byteLen cs

/-- The test `ch -= '0'; ch > 9` of the fast path, negated: the byte is an
ASCII digit. A character outside ASCII is encoded by bytes `≥ 0x80`, none of
which is a digit. -/
def isDigit (c : Char) : Bool := 48 ≤ c.toNat && c.toNat ≤ 57

/-- Value of an ASCII digit (`ch - '0'`). -/
def digitVal (c : Char) : Nat := c.toNat - 48

/-- The digit loop of the fast path of `Atoi`: `n = n*10 + int(ch)` in `int`
arithmetic, `none` at the first byte that is not a digit. -/
def atoiFastLoop : List Char → Int → Option Int
  | [], n => some n
  | c :: cs, n =>
    if isDigit c then atoiFastLoop cs (toInt64 (n * 10 + digitVal c)) else none

/-- Outcome of the loop of `ParseUint`. -/
inductive UintResult where
  | ok (n : Nat)
  | synErr
  | rangeErr
  deriving DecidableEq, Repr

/-- The function `lower(c)` of package strconv: `c | ('x' - 'X')`. -/
def lower (c : Nat) : Nat := c ||| 32

/-- The `switch` of `ParseUint` that reads one byte as a digit in some base up
to 36 (`none` is the `default` branch; underscores are only read in base 0). -/
def uintDigit (c : Char) : Option Nat :=
  if 48 ≤ c.toNat ∧ c.toNat ≤ 57 then some (c.toNat - 48)
  else if 97 ≤ lower c.toNat ∧ lower c.toNat ≤ 122 then
    some (lower c.toNat - 97 + 10)
  else none

/-- The loop of `ParseUint(s, 10, 0)`: `cutoff = maxUint64/10 + 1`,
`maxVal = 1<<64 - 1`, and `n` a `uint64`. -/
def parseUintLoop : List Char → Nat → UintResult
  | [], n => .ok n
  | c :: cs, n =>
    match uintDigit c with
    | none => .synErr
    | some d =>
      if d ≥ 10 then .synErr
      else if n ≥ maxUint64 / 10 + 1 then .rangeErr
      else
        let n10 := toUint64 (n * 10)
        let n1 := toUint64 (n10 + d)
        if n1 < n10 ∨ n1 > maxUint64 then .rangeErr
        else parseUintLoop cs n1

/-- The call `ParseUint(s, 10, 0)`: the empty string is a syntax error. -/
def ParseUint (s : List Char) : UintResult :=
  match s with
  | [] => .synErr
  | _ => parseUintLoop s 0

/-- The `cutoff` of `ParseInt` for bit size `intSize`:
`uint64(1 << uint(bitSize-1))`. -/
def intCutoff : Nat := 2 ^ (intSize - 1)

/-- The call `ParseInt(s, 10, 0)`, with the error already renamed to function `Atoi`
as the slow path of `Atoi` does. -/
def ParseInt (s : String) : Except GoError Int :=
  match s.data with
  | [] => .error (syntaxError "Atoi" s)
  | c :: cs =>
    let neg := c = '-'
    let body := if c = '+' ∨ c = '-' then cs else c :: cs
    match ParseUint body with
    | .synErr => .error (syntaxError "Atoi" s)
    | r =>
      -- a range error of `ParseUint` comes with `un = maxVal`
      let un : Nat := match r with
        | .ok n => n
        | _ => maxUint64
      if ¬ neg ∧ un ≥ intCutoff then .error (rangeError "Atoi" s)
      else if neg ∧ un > intCutoff then .error (rangeError "Atoi" s)
      else
        let n := toInt64 un
        .ok (if neg then toInt64 (-n) else n)

/-- The function `strconv.Atoi(s)`: a fast path for strings of fewer than 19 bytes, which
cannot overflow a 64-bit `int`, and `ParseInt(s, 10, 0)` otherwise. -/
def Atoi (s : String) : Except GoError Int :=
  let sLen := byteLen s.data
  if 0 < sLen ∧ sLen < 19 then
    match s.data with
    | [] => .error (syntaxError "Atoi" s)
    | c :: cs =>
      let body := if c = '-' ∨ c = '+' then cs else c :: cs
      if (c = '-' ∨ c = '+') ∧ byteLen body < 1 then .error (syntaxError "Atoi" s)
      else
        match atoiFastLoop body 0 with
        | none => .error (syntaxError "Atoi" s)
        | some n => .ok (if c = '-' then toInt64 (-n) else n)
  else
    match ParseInt s with
    | .error e => .error e
    | .ok i64 => .ok (toInt64 i64)

/-! ## The topic-filter parser -/

/-- The loop of `convertTopicIDParam` over the segments: `topicIDs` is the
slice built so far; the first segment `Atoi` rejects ends the function with a
`nil` slice and the wrapped error. -/
def convertLoop : List String → List Int → Option (List Int) × Option GoError
  | [], topicIDs => (some topicIDs, none)
  | strID :: ids, topicIDs =>
    match Atoi strID with
    | .error err => (none, some (.wrap err "Request data invalid"))
    | .ok num => convertLoop ids (topicIDs ++ [toInt64 num])

/-- The method `NewsHandler.convertTopicIDParam`: the pair `([]int64, error)` it returns,
`none` being `nil`. -/
def convertTopicIDParam (param : String) : Option (List Int) × Option GoError :=
  let topicIDs : List Int := []
  if param ≠ "" then convertLoop (Split param ',') topicIDs
  else (some topicIDs, none)

/-! ## Domain and transport types -/

/-- Modelled from the spec: `models.News`, whose declaration is not part of
the handler file. The handlers read or write `ID`, `Status` and `TopicIDs`;
`Content` stands for the remaining fields, which they never touch. -/
structure News where
  ID : Int
  Status : String
  TopicIDs : Option (List Int)
  Content : String
  deriving DecidableEq, Repr

/-- Modelled from the spec: `models.Pagination` (page-size limit and cursor
token). -/
structure Pagination where
  Limit : Int
  NextCursor : String
  deriving DecidableEq, Repr

/-- Modelled from the spec: `models.FetchNewsParam`, the fetch criteria. -/
structure FetchNewsParam where
  Pagination : Option Pagination
  Status : String
  TopicIDs : Option (List Int)
  deriving DecidableEq, Repr

/-- Modelled from the spec: `MutateNewsRequest`, the bound body of a create or
update request. `News` is a `*models.News` (the handler passes it to a
function taking `*models.News`), so it is `nil` when the body carries no news
payload. -/
structure MutateNewsRequest where
  News : Option News
  NewsTopic : Option (List Int)
  deriving DecidableEq, Repr

/-- Modelled from the spec: `FetchNewsRequest`, the bound query parameters
`limit`, `nextCursor`, `status` and `topic`. -/
structure FetchNewsRequest where
  Limit : Int
  NextCursor : String
  Status : String
  Topic : String
  deriving DecidableEq, Repr

/-- The payload types a handler puts in `GeneralResponse.Data`:
`&MutateNewsResponse{News}`, `&NewsResponse{News, Pagination}` and
`&DeleteNewsResponse{IsSuccess}`. -/
inductive Payload where
  | mutateNewsResponse (News : Option News)
  | newsResponse (News : Option (List News)) (Pagination : Option Pagination)
  | deleteNewsResponse (IsSuccess : Bool)
  deriving DecidableEq, Repr

/-- The response envelope `models.GeneralResponse`; `Data = none` is the `nil`
interface value. -/
structure GeneralResponse where
  Data : Option Payload
  ErrorMessage : String
  Message : String
  deriving DecidableEq, Repr

/-- A `context.Context`: the one of the request, or `context.Background()`. -/
inductive GoContext where
  | background
  | request (id : Nat)
  deriving DecidableEq, Repr

/-- What a handler reads from its `echo.Context`: the outcome of `c.Bind` for
each of the two request shapes, the path parameters, and
`c.Request().Context()` (`none` is `nil`). -/
structure EchoContext where
  bindMutate : Except GoError MutateNewsRequest
  bindFetch : Except GoError FetchNewsRequest
  Param : String → String
  requestContext : Option GoContext

/-- The use-case collaborator `news.NewsUseCase`: each operation maps its
arguments to the Go result tuple, the last component being the `error`
(`none` is `nil`). -/
structure NewsUseCase where
  FetchNewsByParams : GoContext → FetchNewsParam →
    Option (List News) × Option Pagination × Option GoError
  InsertNews : GoContext → News → Option News × Option GoError
  UpdateNews : GoContext → News → Option News × Option GoError
  DeleteNews : GoContext → Int → Bool × Option GoError

/-- One observable step of a handler run: the pipeline calling the mutation
function it was given, or a call of a collaborator operation, with the
arguments passed. -/
inductive Event where
  | mutation (ctx : GoContext) (n : News)
  | fetchNewsByParams (ctx : GoContext) (p : FetchNewsParam)
  | insertNews (ctx : GoContext) (n : News)
  | updateNews (ctx : GoContext) (n : News)
  | deleteNews (ctx : GoContext) (id : Int)
  deriving DecidableEq, Repr

/-- How a handler run ends: with one `c.JSON(code, body)`, or with the
run-time fault of writing a field through a `nil` pointer, in which case the
handler writes no response. -/
inductive Outcome where
  | json (code : Nat) (body : GeneralResponse)
  | nilDereference
  deriving DecidableEq, Repr

/-- A handler run: the events in order and the outcome. -/
structure Run where
  trace : List Event
  outcome : Outcome
  deriving DecidableEq, Repr

/-- The response envelopes a run emitted. -/
def Run.emitted (r : Run) : List (Nat × GeneralResponse) :=
  match r.outcome with
  | .json code body => [(code, body)]
  | .nilDereference => []

/-- The collaborator operations a run invoked. -/
def Run.collaboratorCalls (r : Run) : List Event :=
  r.trace.filter fun e =>
    match e with
    | .mutation _ _ => false
    | _ => true

/-- The function type `NewsMutationHandler`: given the context and the record, the collaborator
calls it made and the `(*models.News, error)` it returned. -/
abbrev NewsMutationHandler := GoContext → News → List Event × Option News × Option GoError

/-- The context a handler passes on: `c.Request().Context()`, or
`context.Background()` when that is `nil`. -/
def resolveContext (c : EchoContext) : GoContext :=
  match c.requestContext with
  | some ctx => ctx
  | none => .background

/-! ## The handlers -/

/-- The method `NewsHandler.mutateNews`: bind the body, attach the topic IDs
to the bound payload, run the mutation function, render its outcome. -/
def mutateNews (quote : String → String) (c : EchoContext)
    (mutationHandler : NewsMutationHandler) : Run :=
  match c.bindMutate with
  | .error err =>
    ⟨[], .json 400
      { Data := none
        ErrorMessage := (GoError.wrap err "Request data invalid").Error quote
        Message := "Fail" }⟩
  | .ok req =>
    let ctx := resolveContext c
    match req.News with
    | none => ⟨[], .nilDereference⟩
    | some news0 =>
      let news : News := { news0 with TopicIDs := req.NewsTopic }
      match mutationHandler ctx news with
      | (calls, _, some err) =>
        ⟨.mutation ctx news :: calls, .json 500
          { Data := none
            ErrorMessage := err.Error quote
            Message := "Fail" }⟩
      | (calls, result, none) =>
        ⟨.mutation ctx news :: calls, .json 200
          { Data := some (.mutateNewsResponse result)
            ErrorMessage := ""
            Message := "OK" }⟩

/-- The method `NewsHandler.FetchNews`. -/
def FetchNews (quote : String → String) (c : EchoContext) (uc : NewsUseCase) : Run :=
  match c.bindFetch with
  | .error err =>
    ⟨[], .json 400
      { Data := none
        ErrorMessage := (GoError.wrap err "Request data invalid").Error quote
        Message := "Fail" }⟩
  | .ok params =>
    let ctx := resolveContext c
    let fetchParams : FetchNewsParam :=
      { Pagination := some { Limit := params.Limit, NextCursor := params.NextCursor }
        Status := params.Status
        TopicIDs := none }
    match convertTopicIDParam params.Topic with
    | (_, some err) =>
      ⟨[], .json 400
        { Data := none
          ErrorMessage := err.Error quote
          Message := "Fail" }⟩
    | (topicIDs, none) =>
      let fetchParams := { fetchParams with TopicIDs := topicIDs }
      match uc.FetchNewsByParams ctx fetchParams with
      | (_, _, some err) =>
        ⟨[.fetchNewsByParams ctx fetchParams], .json 500
          { Data := none
            ErrorMessage := err.Error quote
            Message := "Fail" }⟩
      | (result, pagination, none) =>
        ⟨[.fetchNewsByParams ctx fetchParams], .json 200
          { Data := some (.newsResponse result pagination)
            ErrorMessage := ""
            Message := "OK" }⟩

/-- The mutation function `InsertNews` hands to `mutateNews`. -/
def insertMutation (uc : NewsUseCase) : NewsMutationHandler :=
  fun ctx n =>
    let n : News := { n with Status := "draft" }
    ([.insertNews ctx n], uc.InsertNews ctx n)

/-- The method `NewsHandler.InsertNews`. -/
def InsertNews (quote : String → String) (c : EchoContext) (uc : NewsUseCase) : Run :=
  mutateNews quote c (insertMutation uc)

/-- The mutation function `UpdateNews` hands to `mutateNews`. -/
def updateMutation (c : EchoContext) (uc : NewsUseCase) : NewsMutationHandler :=
  fun ctx n =>
    let id := c.Param "id"
    match Atoi id with
    | .error err => ([], none, some (.wrap err "id must integer"))
    | .ok intId =>
      let n : News := { n with ID := toInt64 intId }
      ([.updateNews ctx n], uc.UpdateNews ctx n)

/-- The method `NewsHandler.UpdateNews`. -/
def UpdateNews (quote : String → String) (c : EchoContext) (uc : NewsUseCase) : Run :=
  mutateNews quote c (updateMutation c uc)

/-- The method `NewsHandler.DeleteNews`. -/
def DeleteNews (quote : String → String) (c : EchoContext) (uc : NewsUseCase) : Run :=
  let id := c.Param "id"
  match Atoi id with
  | .error err =>
    ⟨[], .json 400
      { Data := none
        ErrorMessage := (GoError.wrap err "Topic ID must int").Error quote
        Message := "Fail" }⟩
  | .ok intId =>
    let ctx := resolveContext c
    match uc.DeleteNews ctx (toInt64 intId) with
    | (_, some err) =>
      ⟨[.deleteNews ctx (toInt64 intId)], .json 500
        { Data := none
          ErrorMessage := (GoError.wrap err "Delete topic failed").Error quote
          Message := "Fail" }⟩
    | (ok, none) =>
      ⟨[.deleteNews ctx (toInt64 intId)], .json 200
        { Data := some (.deleteNewsResponse ok)
          ErrorMessage := ""
          Message := "OK" }⟩

/-! ## Specification-side predicates -/

/-- The envelope invariant of the data model: `Message` is `"Fail"` exactly
when `ErrorMessage` is non-empty, exactly when `Data` is absent; and `Message`
is `"OK"` exactly when `Data` is present and `ErrorMessage` is empty. -/
def EnvelopeInvariant (r : GeneralResponse) : Prop :=
  (r.Message = "Fail" ↔ r.ErrorMessage ≠ "") ∧
  (r.ErrorMessage ≠ "" ↔ r.Data = none) ∧
  (r.Message = "OK" ↔ (r.Data ≠ none ∧ r.ErrorMessage = ""))

instance (r : GeneralResponse) : Decidable (EnvelopeInvariant r) := by
  unfold EnvelopeInvariant; infer_instance

/-- HTTP status of a run's response, if it wrote one. -/
def Run.status (r : Run) : Option Nat :=
  match r.outcome with
  | .json code _ => some code
  | .nilDereference => none

/-! ## Decimal numerals (specification side) -/

/-- Base-10 value of a digit string, continuing from `n`. -/
def decAcc : List Char → Nat → Nat
  | [], n => n
  | c :: cs, n => decAcc cs (n * 10 + digitVal c)

/-- Every character is an ASCII digit. -/
def allDigits (cs : List Char) : Bool := cs.all isDigit

/-- What is left of a string once one leading `+` or `-` is removed. -/
def signBody : List Char → List Char
  | [] => []
  | c :: cs => if c = '+' ∨ c = '-' then cs else c :: cs

/-- A base-10 integer numeral: an optional sign followed by at least one
digit. -/
def isNumeral (s : String) : Bool :=
  !(signBody s.data).isEmpty && allDigits (signBody s.data)

/-- The integer a numeral denotes. -/
def numeralValue (s : String) : Int :=
  if s.data.head? = some '-' then -(decAcc (signBody s.data) 0 : Int)
  else (decAcc (signBody s.data) 0 : Int)

/-- The string is a base-10 integer numeral whose value fits Go's `int`. -/
def ParsesAsInt (s : String) : Prop :=
  isNumeral s = true ∧ minInt ≤ numeralValue s ∧ numeralValue s ≤ maxInt

instance (s : String) : Decidable (ParsesAsInt s) := by
  unfold ParsesAsInt; infer_instance

/-- The character of a decimal digit. -/
def digitChar : Nat → Char
  | 0 => '0' | 1 => '1' | 2 => '2' | 3 => '3' | 4 => '4'
  | 5 => '5' | 6 => '6' | 7 => '7' | 8 => '8' | _ => '9'

/-- Decimal digits of `n`, most significant first; `fuel` bounds the number of
digits produced. -/
def natDigits : Nat → Nat → List Char
  | 0, _ => []
  | fuel + 1, n =>
    if n < 10 then [digitChar n] else natDigits fuel (n / 10) ++ [digitChar (n % 10)]

/-- The base-10 rendering of an integer (what `strconv.Itoa` prints): a minus
sign for a negative value, then the digits without leading zeros. -/
def Itoa (x : Int) : String :=
  if x < 0 then ⟨'-' :: natDigits (x.natAbs + 1) x.natAbs⟩
  else ⟨natDigits (x.toNat + 1) x.toNat⟩

/-- The segments joined with `sep` between them (`strings.Join`). -/
def joinWith (sep : Char) : List String → String
  | [] => ""
  | [s] => s
  | s :: t :: rest => s ++ String.singleton sep ++ joinWith sep (t :: rest)

/-! ## Sample requests and collaborators for the concrete checks -/

/-- A stand-in for `strconv.Quote` in concrete checks: the text between
double quotes. -/
def sampleQuote (s : String) : String :=
  String.singleton (Char.ofNat 34) ++ s ++ String.singleton (Char.ofNat 34)

/-- A news payload titled "A" that asks for status "published". -/
def sampleNews : News :=
  { ID := 0, Status := "published", TopicIDs := none, Content := "A" }

/-- A request on path id `id` whose body binds to `req` (and whose query does
not bind). -/
def mutationContext (id : String) (req : MutateNewsRequest) : EchoContext :=
  { bindMutate := .ok req
    bindFetch := .error (.app 0 "no query")
    Param := fun name => if name = "id" then id else ""
    requestContext := some (.request 1) }

/-- A request on path id `id` whose query binds to `params` (and which has no
bindable body). -/
def queryContext (id : String) (params : FetchNewsRequest) : EchoContext :=
  { bindMutate := .error (.app 0 "no body")
    bindFetch := .ok params
    Param := fun name => if name = "id" then id else ""
    requestContext := some (.request 1) }

/-- A collaborator every operation of which fails with `e`. -/
def failingUseCase (e : GoError) : NewsUseCase :=
  { FetchNewsByParams := fun _ _ => (none, none, some e)
    InsertNews := fun _ _ => (none, some e)
    UpdateNews := fun _ _ => (none, some e)
    DeleteNews := fun _ _ => (false, some e) }

/-- A collaborator every operation of which succeeds: it stores the record as
given, returns an empty page, and reports `flag` for a deletion. -/
def succeedingUseCase (flag : Bool) : NewsUseCase :=
  { FetchNewsByParams := fun _ p => (some [], p.Pagination, none)
    InsertNews := fun _ n => (some n, none)
    UpdateNews := fun _ n => (some n, none)
    DeleteNews := fun _ _ => (flag, none) }

/-- A collaborator whose `InsertNews` fails with the empty message for the
record with ID 999 and with "db down" for every other record; its other
operations succeed. -/
def pickyUseCase : NewsUseCase :=
  { FetchNewsByParams := fun _ p => (some [], p.Pagination, none)
    InsertNews := fun _ n =>
      if n.ID = 999 then (none, some (.app 0 "")) else (none, some (.app 0 "db down"))
    UpdateNews := fun _ n => (some n, none)
    DeleteNews := fun _ _ => (true, none) }

/-! # Theorems -/

/-! ## Machine integers -/

theorem toInt64_of_range (x : Int) (h1 : -(2 : Int) ^ 63 ≤ x) (h2 : x < (2 : Int) ^ 63) :
    toInt64 x = x := by
  unfold toInt64
  omega

theorem utf8Size_of_isDigit (c : Char) (h : isDigit c = true) : c.utf8Size = 1 := by
  unfold isDigit at h
  simp only [Bool.and_eq_true, decide_eq_true_eq] at h
  have h1 : c.val ≤ UInt32.ofNatCore 127 (by decide) := by
    show c.val.toNat ≤ 127
    have : c.val.toNat = c.toNat := rfl
    omega
  show (if c.val ≤ UInt32.ofNatCore 127 (by decide) then 1 else _) = 1
  rw [if_pos h1]

/-! ## Decimal values -/

theorem le_decAcc (cs : List Char) (n : Nat) : n ≤ decAcc cs n := by
  induction cs generalizing n with
  | nil => simp [decAcc]
  | cons c cs ih =>
    simp only [decAcc]
    have := ih (n * 10 + digitVal c)
    omega

theorem digitVal_lt (c : Char) (h : isDigit c = true) : digitVal c < 10 := by
  unfold isDigit at h
  simp only [Bool.and_eq_true, decide_eq_true_eq] at h
  unfold digitVal
  omega

theorem allDigits_cons (c : Char) (cs : List Char) :
    allDigits (c :: cs) = (isDigit c && allDigits cs) := by
  simp [allDigits]

theorem decAcc_lt (cs : List Char) (n : Nat) (h : allDigits cs = true) :
    decAcc cs n < (n + 1) * 10 ^ cs.length := by
  induction cs generalizing n with
  | nil => simp [decAcc]
  | cons c cs ih =>
    rw [allDigits_cons, Bool.and_eq_true] at h
    have hd := digitVal_lt c h.1
    have h1 := ih (n * 10 + digitVal c) h.2
    simp only [decAcc, List.length_cons, pow_succ]
    calc decAcc cs (n * 10 + digitVal c)
        < (n * 10 + digitVal c + 1) * 10 ^ cs.length := h1
      _ ≤ (n * 10 + 10) * 10 ^ cs.length := Nat.mul_le_mul_right _ (by omega)
      _ = (n + 1) * (10 ^ cs.length * 10) := by ring

theorem byteLen_of_allDigits (cs : List Char) (h : allDigits cs = true) :
    byteLen cs = cs.length := by
  induction cs with
  | nil => rfl
  | cons c cs ih =>
    rw [allDigits_cons, Bool.and_eq_true] at h
    simp [byteLen, utf8Size_of_isDigit c h.1, ih h.2]
    omega

theorem length_le_byteLen (cs : List Char) : cs.length ≤ byteLen cs := by
  induction cs with
  | nil => simp [byteLen]
  | cons c cs ih =>
    have := Char.utf8Size_pos c
    simp only [byteLen, List.length_cons]
    omega

/-! ## The two digit loops of `strconv` -/

theorem atoiFastLoop_of_allDigits (cs : List Char) (n : Nat) (h : allDigits cs = true)
    (hb : decAcc cs n < 2 ^ 63) :
    atoiFastLoop cs (n : Int) = some ((decAcc cs n : Nat) : Int) := by
  induction cs generalizing n with
  | nil => simp [atoiFastLoop, decAcc]
  | cons c cs ih =>
    rw [allDigits_cons, Bool.and_eq_true] at h
    simp only [decAcc] at hb ⊢
    have hle := le_decAcc cs (n * 10 + digitVal c)
    have hw : toInt64 ((n : Int) * 10 + (digitVal c : Int)) = ((n * 10 + digitVal c : Nat) : Int) := by
      rw [toInt64_of_range] <;> push_cast <;> omega
    simp only [atoiFastLoop, h.1, if_true, hw]
    exact ih _ h.2 hb

theorem atoiFastLoop_of_not_allDigits (cs : List Char) (n : Int) (h : allDigits cs = false) :
    atoiFastLoop cs n = none := by
  induction cs generalizing n with
  | nil => simp [allDigits] at h
  | cons c cs ih =>
    rw [allDigits_cons] at h
    cases hc : isDigit c with
    | false => simp [atoiFastLoop, hc]
    | true =>
      rw [hc, Bool.true_and] at h
      simp only [atoiFastLoop, hc, if_true]
      exact ih _ h

theorem uintDigit_of_isDigit (c : Char) (h : isDigit c = true) :
    uintDigit c = some (digitVal c) := by
  unfold isDigit at h
  simp only [Bool.and_eq_true, decide_eq_true_eq] at h
  simp [uintDigit, digitVal, h]

theorem uintDigit_of_not_isDigit (c : Char) (h : isDigit c = false) :
    uintDigit c = none ∨ ∃ d, uintDigit c = some d ∧ 10 ≤ d := by
  unfold isDigit at h
  have h' : ¬ (48 ≤ c.toNat ∧ c.toNat ≤ 57) := by
    intro hh
    simp [hh.1, hh.2] at h
  unfold uintDigit
  rw [if_neg h']
  by_cases hl : 97 ≤ lower c.toNat ∧ lower c.toNat ≤ 122
  · right
    exact ⟨_, by rw [if_pos hl], by omega⟩
  · left
    rw [if_neg hl]

theorem parseUintLoop_of_not_allDigits (cs : List Char) (n : Nat) (h : allDigits cs = false) :
    parseUintLoop cs n = .synErr ∨ parseUintLoop cs n = .rangeErr := by
  induction cs generalizing n with
  | nil => simp [allDigits] at h
  | cons c cs ih =>
    rw [allDigits_cons] at h
    cases hc : isDigit c with
    | false =>
      rcases uintDigit_of_not_isDigit c hc with h0 | ⟨d, h0, hd⟩
      · left; simp [parseUintLoop, h0]
      · left; simp [parseUintLoop, h0, hd]
    | true =>
      rw [hc, Bool.true_and] at h
      have hd := digitVal_lt c hc
      simp only [parseUintLoop, uintDigit_of_isDigit c hc]
      rw [if_neg (by omega)]
      split
      · right; rfl
      · split
        · right; rfl
        · exact ih _ h

theorem parseUintLoop_of_allDigits (cs : List Char) (n : Nat) (h : allDigits cs = true)
    (hn : n ≤ maxUint64) :
    parseUintLoop cs n =
      if decAcc cs n ≤ maxUint64 then .ok (decAcc cs n) else .rangeErr := by
  induction cs generalizing n with
  | nil => simp [parseUintLoop, decAcc, hn]
  | cons c cs ih =>
    rw [allDigits_cons, Bool.and_eq_true] at h
    have hd := digitVal_lt c h.1
    have hle := le_decAcc cs (n * 10 + digitVal c)
    simp only [parseUintLoop, uintDigit_of_isDigit c h.1, decAcc]
    rw [if_neg (by omega)]
    unfold maxUint64 toUint64 at *
    by_cases h1 : n ≥ (2 ^ 64 - 1) / 10 + 1
    · rw [if_pos h1, if_neg (by omega)]
    · rw [if_neg h1]
      by_cases h2 : n * 10 + digitVal c ≤ 2 ^ 64 - 1
      · have e1 : n * 10 % 2 ^ 64 = n * 10 := Nat.mod_eq_of_lt (by omega)
        have e2 : (n * 10 + digitVal c) % 2 ^ 64 = n * 10 + digitVal c :=
          Nat.mod_eq_of_lt (by omega)
        simp only [e1, e2]
        rw [if_neg (by omega)]
        exact ih _ h.2 h2
      · have e1 : n * 10 % 2 ^ 64 = n * 10 := Nat.mod_eq_of_lt (by omega)
        simp only [e1]
        rw [if_pos (by omega), if_neg (by omega)]

/-! ## `ParseInt` and `Atoi` against the numeral specification -/

theorem byteLen_lt_one (cs : List Char) : byteLen cs < 1 ↔ cs = [] := by
  cases cs with
  | nil => simp [byteLen]
  | cons c cs =>
    have := Char.utf8Size_pos c
    simp only [byteLen, reduceCtorEq, iff_false]
    omega

theorem ParseUint_of_numeralBody (cs : List Char) (h1 : cs ≠ []) (h2 : allDigits cs = true) :
    ParseUint cs = if decAcc cs 0 ≤ maxUint64 then .ok (decAcc cs 0) else .rangeErr := by
  cases cs with
  | nil => exact absurd rfl h1
  | cons c cs =>
    show parseUintLoop (c :: cs) 0 = _
    exact parseUintLoop_of_allDigits _ 0 h2 (by unfold maxUint64; omega)

theorem ParseUint_of_not_numeralBody (cs : List Char) (h : cs = [] ∨ allDigits cs = false) :
    ParseUint cs = .synErr ∨ ParseUint cs = .rangeErr := by
  cases cs with
  | nil => left; rfl
  | cons c cs =>
    rcases h with h | h
    · exact absurd h (by simp)
    · exact parseUintLoop_of_not_allDigits _ 0 h

theorem numeral_cons_iff (c : Char) (cs : List Char) :
    isNumeral ⟨c :: cs⟩ = true ↔
      signBody (c :: cs) ≠ [] ∧ allDigits (signBody (c :: cs)) = true := by
  simp [isNumeral, List.isEmpty_iff]

theorem numeralValue_cons (c : Char) (cs : List Char) :
    numeralValue ⟨c :: cs⟩ =
      if c = '-' then -(decAcc (signBody (c :: cs)) 0 : Int)
      else (decAcc (signBody (c :: cs)) 0 : Int) := by
  simp [numeralValue]

theorem intCutoff_eq : intCutoff = 9223372036854775808 := by
  norm_num [intCutoff, intSize]

theorem minInt_eq : minInt = -9223372036854775808 := by
  norm_num [minInt, intSize]

theorem maxInt_eq : maxInt = 9223372036854775807 := by
  norm_num [maxInt, intSize]

theorem maxUint64_eq : maxUint64 = 18446744073709551615 := by
  norm_num [maxUint64]

theorem ParseInt_of_parses (s : String) (h : ParsesAsInt s) :
    ParseInt s = .ok (numeralValue s) := by
  obtain ⟨cs⟩ := s
  cases cs with
  | nil => simp [ParsesAsInt, isNumeral, signBody] at h
  | cons c cs =>
    obtain ⟨hn, hlo, hhi⟩ := h
    rw [numeral_cons_iff] at hn
    rw [numeralValue_cons] at hlo hhi ⊢
    have hu := ParseUint_of_numeralBody _ hn.1 hn.2
    have hbody : (if c = '+' ∨ c = '-' then cs else c :: cs) = signBody (c :: cs) := rfl
    rw [minInt_eq] at hlo
    rw [maxInt_eq] at hhi
    rw [maxUint64_eq] at hu
    unfold ParseInt
    simp only [hbody]
    generalize decAcc (signBody (c :: cs)) 0 = v at *
    by_cases hneg : c = '-'
    · simp only [hneg, if_true] at hlo hhi ⊢
      rw [if_pos (by omega)] at hu
      simp only [hneg] at hu
      rw [hu]
      dsimp only
      rw [intCutoff_eq, if_neg (by simp), if_neg (by omega)]
      refine congrArg Except.ok ?_
      unfold toInt64
      omega
    · simp only [hneg, if_false] at hlo hhi ⊢
      rw [if_pos (by omega)] at hu
      rw [hu]
      dsimp only
      rw [intCutoff_eq, if_neg (by omega), if_neg (by simp)]
      refine congrArg Except.ok ?_
      unfold toInt64
      omega

theorem ParseInt_rangeErr (c : Char) (cs : List Char)
    (h : ParseUint (signBody (c :: cs)) = .rangeErr) :
    ParseInt ⟨c :: cs⟩ = .error (rangeError "Atoi" ⟨c :: cs⟩) := by
  have hbody : (if c = '+' ∨ c = '-' then cs else c :: cs) = signBody (c :: cs) := rfl
  unfold ParseInt
  simp only [hbody]
  rw [h]
  dsimp only
  rw [intCutoff_eq, maxUint64_eq]
  by_cases hneg : c = '-'
  · rw [if_neg (by simp [hneg]), if_pos ⟨by simp [hneg], by omega⟩]
  · rw [if_pos ⟨by simp [hneg], by omega⟩]

theorem ParseInt_of_not_parses (s : String) (h : ¬ ParsesAsInt s) :
    ∃ k, ParseInt s = .error (.numError "Atoi" s k) := by
  obtain ⟨cs⟩ := s
  cases cs with
  | nil => exact ⟨.invalidSyn, rfl⟩
  | cons c cs =>
    have hbody : (if c = '+' ∨ c = '-' then cs else c :: cs) = signBody (c :: cs) := rfl
    by_cases hn : signBody (c :: cs) ≠ [] ∧ allDigits (signBody (c :: cs)) = true
    · have hu := ParseUint_of_numeralBody _ hn.1 hn.2
      by_cases hv : decAcc (signBody (c :: cs)) 0 ≤ maxUint64
      · rw [if_pos hv] at hu
        have hr : ¬ (minInt ≤ numeralValue ⟨c :: cs⟩ ∧ numeralValue ⟨c :: cs⟩ ≤ maxInt) :=
          fun hr => h ⟨(numeral_cons_iff c cs).2 hn, hr⟩
        rw [numeralValue_cons, minInt_eq, maxInt_eq] at hr
        refine ⟨.outOfRange, ?_⟩
        unfold ParseInt
        simp only [hbody]
        rw [hu]
        dsimp only
        generalize decAcc (signBody (c :: cs)) 0 = v at *
        rw [intCutoff_eq]
        by_cases hneg : c = '-'
        · simp only [hneg, if_true] at hr
          rw [if_neg (by simp [hneg]), if_pos ⟨by simp [hneg], by omega⟩]
          rfl
        · simp only [hneg, if_false] at hr
          rw [if_pos ⟨by simp [hneg], by omega⟩]
          rfl
      · rw [if_neg hv] at hu
        exact ⟨.outOfRange, ParseInt_rangeErr c cs hu⟩
    · have hn' : signBody (c :: cs) = [] ∨ allDigits (signBody (c :: cs)) = false := by
        by_cases h0 : signBody (c :: cs) = []
        · exact Or.inl h0
        · right
          cases hd : allDigits (signBody (c :: cs)) with
          | false => rfl
          | true => exact absurd ⟨h0, hd⟩ hn
      rcases ParseUint_of_not_numeralBody _ hn' with hu | hu
      · refine ⟨.invalidSyn, ?_⟩
        unfold ParseInt
        simp only [hbody]
        rw [hu]
        rfl
      · exact ⟨.outOfRange, ParseInt_rangeErr c cs hu⟩

theorem signBody_cons (c : Char) (cs : List Char) :
    signBody (c :: cs) = if c = '+' ∨ c = '-' then cs else c :: cs := rfl

theorem signBody_cons_swap (c : Char) (cs : List Char) :
    (if c = '-' ∨ c = '+' then cs else c :: cs) = signBody (c :: cs) := by
  rw [signBody_cons]
  by_cases h : c = '-' ∨ c = '+'
  · rw [if_pos h, if_pos h.symm]
  · rw [if_neg h, if_neg (fun h' => h h'.symm)]

theorem byteLen_signBody_le (cs : List Char) : byteLen (signBody cs) ≤ byteLen cs := by
  cases cs with
  | nil => simp [signBody]
  | cons c cs =>
    rw [signBody_cons]
    split
    · simp only [byteLen]; omega
    · exact Nat.le_refl _

/-- On the fast path of `Atoi` a digit string has at most 18 digits, so its
value stays below `10 ^ 18`. -/
theorem decAcc_lt_of_short (cs : List Char) (h : allDigits cs = true) (hl : byteLen cs < 19) :
    decAcc cs 0 < 1000000000000000000 := by
  have h1 := decAcc_lt cs 0 h
  rw [byteLen_of_allDigits cs h] at hl
  have h2 : 10 ^ cs.length ≤ 10 ^ 18 := Nat.pow_le_pow_right (by decide) (by omega)
  have h3 : (10 : Nat) ^ 18 = 1000000000000000000 := by norm_num
  omega

theorem Atoi_fast_of_numeralBody (c : Char) (cs : List Char)
    (hfast : 0 < byteLen (c :: cs) ∧ byteLen (c :: cs) < 19)
    (h1 : signBody (c :: cs) ≠ []) (h2 : allDigits (signBody (c :: cs)) = true) :
    Atoi ⟨c :: cs⟩ = .ok (numeralValue ⟨c :: cs⟩) ∧ ParsesAsInt ⟨c :: cs⟩ := by
  have hlen := byteLen_signBody_le (c :: cs)
  have hv := decAcc_lt_of_short _ h2 (by omega)
  have hloop := atoiFastLoop_of_allDigits _ 0 h2 (by omega)
  have hne : ¬ ((c = '-' ∨ c = '+') ∧ byteLen (signBody (c :: cs)) < 1) := by
    rw [byteLen_lt_one]
    exact fun hh => h1 hh.2
  constructor
  · unfold Atoi
    simp only [signBody_cons_swap]
    rw [if_pos hfast, if_neg hne]
    simp only [Nat.cast_zero] at hloop
    rw [hloop, numeralValue_cons]
    dsimp only
    generalize decAcc (signBody (c :: cs)) 0 = v at *
    refine congrArg Except.ok ?_
    by_cases hneg : c = '-'
    · rw [if_pos hneg, if_pos hneg, toInt64_of_range] <;> omega
    · rw [if_neg hneg, if_neg hneg]
  · refine ⟨(numeral_cons_iff c cs).2 ⟨h1, h2⟩, ?_⟩
    rw [numeralValue_cons, minInt_eq, maxInt_eq]
    generalize decAcc (signBody (c :: cs)) 0 = v at *
    by_cases hneg : c = '-'
    · rw [if_pos hneg]; omega
    · rw [if_neg hneg]; omega

theorem numeralValue_range (s : String) (h : ParsesAsInt s) :
    -(2 : Int) ^ 63 ≤ numeralValue s ∧ numeralValue s < (2 : Int) ^ 63 := by
  obtain ⟨_, hlo, hhi⟩ := h
  rw [minInt_eq] at hlo
  rw [maxInt_eq] at hhi
  constructor <;> omega

/-- The function `Atoi` accepts every numeral within the range of `int` and returns its
value. -/
theorem Atoi_of_parses (s : String) (h : ParsesAsInt s) :
    Atoi s = .ok (numeralValue s) := by
  by_cases hfast : 0 < byteLen s.data ∧ byteLen s.data < 19
  · obtain ⟨cs⟩ := s
    cases cs with
    | nil => simp [byteLen] at hfast
    | cons c cs =>
      have hn := (numeral_cons_iff c cs).1 h.1
      exact (Atoi_fast_of_numeralBody c cs hfast hn.1 hn.2).1
  · have hr := numeralValue_range s h
    unfold Atoi
    dsimp only
    rw [if_neg hfast, ParseInt_of_parses s h]
    dsimp only
    rw [toInt64_of_range _ hr.1 hr.2]

/-- The function `Atoi` rejects every other string with a `NumError` naming it. -/
theorem Atoi_of_not_parses (s : String) (h : ¬ ParsesAsInt s) :
    ∃ k, Atoi s = .error (.numError "Atoi" s k) := by
  by_cases hfast : 0 < byteLen s.data ∧ byteLen s.data < 19
  · obtain ⟨cs⟩ := s
    cases cs with
    | nil => simp [byteLen] at hfast
    | cons c cs =>
      refine ⟨.invalidSyn, ?_⟩
      by_cases h1 : signBody (c :: cs) = []
      · have hsign : c = '-' ∨ c = '+' := by
          rw [signBody_cons] at h1
          by_cases hs : c = '+' ∨ c = '-'
          · exact hs.symm
          · rw [if_neg hs] at h1
            exact absurd h1 (by simp)
        unfold Atoi
        simp only [signBody_cons_swap]
        rw [if_pos hfast, if_pos ⟨hsign, (byteLen_lt_one _).2 h1⟩]
        rfl
      · cases h2 : allDigits (signBody (c :: cs)) with
        | true => exact absurd (Atoi_fast_of_numeralBody c cs hfast h1 h2).2 h
        | false =>
          have hne : ¬ ((c = '-' ∨ c = '+') ∧ byteLen (signBody (c :: cs)) < 1) := by
            rw [byteLen_lt_one]
            exact fun hh => h1 hh.2
          unfold Atoi
          simp only [signBody_cons_swap]
          rw [if_pos hfast, if_neg hne, atoiFastLoop_of_not_allDigits _ 0 h2]
          rfl
  · obtain ⟨k, hk⟩ := ParseInt_of_not_parses s h
    refine ⟨k, ?_⟩
    unfold Atoi
    dsimp only
    rw [if_neg hfast, hk]

/-! ## `strings.Split` undoes a join -/

theorem splitChars_ne_nil (sep : Char) (cs : List Char) : splitChars sep cs ≠ [] := by
  induction cs with
  | nil => simp [splitChars]
  | cons c cs ih =>
    unfold splitChars
    split
    · simp
    · split <;> simp

theorem splitChars_append_sep (sep : Char) (seg rest : List Char) (h : sep ∉ seg) :
    splitChars sep (seg ++ sep :: rest) = seg :: splitChars sep rest := by
  induction seg with
  | nil => simp [splitChars]
  | cons c seg ih =>
    have hc : c ≠ sep := fun e => h (by simp [e])
    have hs : sep ∉ seg := fun e => h (by simp [e])
    show splitChars sep (c :: (seg ++ sep :: rest)) = _
    rw [splitChars, if_neg hc, ih hs]

theorem splitChars_of_not_mem (sep : Char) (seg : List Char) (h : sep ∉ seg) :
    splitChars sep seg = [seg] := by
  induction seg with
  | nil => rfl
  | cons c seg ih =>
    have hc : c ≠ sep := fun e => h (by simp [e])
    have hs : sep ∉ seg := fun e => h (by simp [e])
    rw [splitChars, if_neg hc, ih hs]

theorem Split_joinWith (sep : Char) (segs : List String) (hne : segs ≠ [])
    (h : ∀ seg ∈ segs, sep ∉ seg.data) : Split (joinWith sep segs) sep = segs := by
  induction segs with
  | nil => exact absurd rfl hne
  | cons s rest ih =>
    cases rest with
    | nil =>
      have hs := h s (by simp)
      simp [Split, joinWith, splitChars_of_not_mem sep s.data hs]
    | cons t rest =>
      have hs := h s (by simp)
      have ih' := ih (by simp) (fun seg hseg => h seg (List.mem_cons_of_mem _ hseg))
      unfold Split at ih' ⊢
      simp only [joinWith, String.data_append, String.singleton, List.append_assoc,
        List.singleton_append, String.data_push, List.nil_append]
      rw [splitChars_append_sep sep _ _ hs, List.map_cons, ih']

theorem joinWith_ne_empty (sep : Char) (s : String) (rest : List String) (hs : s ≠ "") :
    joinWith sep (s :: rest) ≠ "" := by
  have hd : s.data ≠ [] := fun e => hs (String.ext e)
  intro he
  have he' := congrArg String.data he
  cases rest with
  | nil => exact hd he'
  | cons t rest =>
    simp only [joinWith, String.data_append] at he'
    simp [hd] at he'

/-! ## Numerals contain no comma -/

theorem data_ne_nil_of_isNumeral (s : String) (h : isNumeral s = true) : s ≠ "" := by
  intro e
  subst e
  simp [isNumeral, signBody] at h

theorem comma_not_mem_of_isNumeral (s : String) (h : isNumeral s = true) : ',' ∉ s.data := by
  obtain ⟨cs⟩ := s
  cases cs with
  | nil => simp
  | cons c cs =>
    rw [numeral_cons_iff, signBody_cons] at h
    have hall : ∀ l, allDigits l = true → ',' ∉ l := by
      intro l hl hm
      have := List.all_eq_true.1 hl ',' hm
      simp [isDigit] at this
    by_cases hs : c = '+' ∨ c = '-'
    · rw [if_pos hs] at h
      intro hm
      rcases List.mem_cons.1 hm with e | e
      · rcases hs with hs | hs <;> · rw [hs] at e; exact absurd e (by decide)
      · exact hall cs h.2 e
    · rw [if_neg hs] at h
      exact hall _ h.2

/-! ## The conversion loop -/

theorem convertLoop_of_parses (segs : List String) (acc : List Int)
    (h : ∀ seg ∈ segs, ParsesAsInt seg) :
    convertLoop segs acc = (some (acc ++ segs.map numeralValue), none) := by
  induction segs generalizing acc with
  | nil => simp [convertLoop]
  | cons s rest ih =>
    have hs := h s (by simp)
    have hr := numeralValue_range s hs
    have := ih (acc ++ [numeralValue s]) (fun seg hseg => h seg (List.mem_cons_of_mem _ hseg))
    simp only [convertLoop, Atoi_of_parses s hs, toInt64_of_range _ hr.1 hr.2, this,
      List.map_cons, List.append_assoc, List.singleton_append]

theorem convertLoop_of_not_parses (segs : List String) (acc : List Int)
    (h : ∃ seg ∈ segs, ¬ ParsesAsInt seg) :
    ∃ seg k, seg ∈ segs ∧ ¬ ParsesAsInt seg ∧
      convertLoop segs acc =
        (none, some (.wrap (.numError "Atoi" seg k) "Request data invalid")) := by
  induction segs generalizing acc with
  | nil =>
    obtain ⟨seg, hm, _⟩ := h
    exact absurd hm (by simp)
  | cons s rest ih =>
    by_cases hs : ParsesAsInt s
    · have hrest : ∃ seg ∈ rest, ¬ ParsesAsInt seg := by
        obtain ⟨seg, hm, hn⟩ := h
        rcases List.mem_cons.1 hm with e | e
        · exact absurd (e ▸ hs) hn
        · exact ⟨seg, e, hn⟩
      obtain ⟨seg, k, hm, hn, he⟩ := ih (acc ++ [toInt64 (numeralValue s)]) hrest
      refine ⟨seg, k, List.mem_cons_of_mem _ hm, hn, ?_⟩
      simp only [convertLoop, Atoi_of_parses s hs, he]
    · obtain ⟨k, hk⟩ := Atoi_of_not_parses s hs
      refine ⟨s, k, by simp, hs, ?_⟩
      simp only [convertLoop, hk]

/-! ## The base-10 rendering of an integer is a numeral denoting it -/

theorem Itoa_samples :
    Itoa (-9223372036854775808) = "-9223372036854775808" ∧ Itoa 0 = "0" ∧
      Itoa 1203 = "1203" := by
  decide

theorem isDigit_digitChar (d : Nat) : isDigit (digitChar d) = true := by
  unfold digitChar
  split <;> decide

theorem digitVal_digitChar (d : Nat) (h : d < 10) : digitVal (digitChar d) = d := by
  interval_cases d <;> rfl

theorem decAcc_append_singleton (cs : List Char) (c : Char) (n : Nat) :
    decAcc (cs ++ [c]) n = decAcc cs n * 10 + digitVal c := by
  induction cs generalizing n with
  | nil => rfl
  | cons a cs ih => exact ih _

theorem natDigits_spec (fuel n : Nat) (h : n < fuel) :
    natDigits fuel n ≠ [] ∧ allDigits (natDigits fuel n) = true ∧
      decAcc (natDigits fuel n) 0 = n := by
  induction fuel generalizing n with
  | zero => omega
  | succ fuel ih =>
    unfold natDigits
    by_cases h10 : n < 10
    · rw [if_pos h10]
      refine ⟨by simp, ?_, ?_⟩
      · simp [allDigits, isDigit_digitChar]
      · simp [decAcc, digitVal_digitChar n h10]
    · rw [if_neg h10]
      obtain ⟨_, h2, h3⟩ := ih (n / 10) (by omega)
      refine ⟨by simp, ?_, ?_⟩
      · unfold allDigits at h2 ⊢
        rw [List.all_append, h2]
        simp [isDigit_digitChar]
      · rw [decAcc_append_singleton, h3, digitVal_digitChar _ (Nat.mod_lt _ (by decide))]
        omega

theorem signBody_of_allDigits (cs : List Char) (h : allDigits cs = true) : signBody cs = cs := by
  cases cs with
  | nil => rfl
  | cons c cs =>
    rw [allDigits_cons, Bool.and_eq_true] at h
    rw [signBody_cons, if_neg]
    rintro (e | e) <;> · rw [e] at h; exact absurd h.1 (by decide)

theorem Itoa_spec (x : Int) : isNumeral (Itoa x) = true ∧ numeralValue (Itoa x) = x := by
  unfold Itoa
  by_cases hx : x < 0
  · rw [if_pos hx]
    obtain ⟨h1, h2, h3⟩ := natDigits_spec (x.natAbs + 1) x.natAbs (by omega)
    constructor
    · rw [numeral_cons_iff]
      exact ⟨h1, h2⟩
    · rw [numeralValue_cons, if_pos rfl]
      show -((decAcc (natDigits (x.natAbs + 1) x.natAbs) 0 : Nat) : Int) = x
      rw [h3]
      omega
  · rw [if_neg hx]
    obtain ⟨h1, h2, h3⟩ := natDigits_spec (x.toNat + 1) x.toNat (by omega)
    have hs := signBody_of_allDigits _ h2
    constructor
    · unfold isNumeral
      simp only [hs, h2, Bool.and_true, Bool.not_eq_true', List.isEmpty_eq_false]
      exact h1
    · unfold numeralValue
      simp only [hs, h3]
      have hh : (natDigits (x.toNat + 1) x.toNat).head? ≠ some '-' := by
        intro e
        cases hl : natDigits (x.toNat + 1) x.toNat with
        | nil => exact h1 hl
        | cons c cs =>
          rw [hl] at e h2
          simp only [List.head?_cons, Option.some.injEq] at e
          rw [allDigits_cons, e, Bool.and_eq_true] at h2
          exact absurd h2.1 (by decide)
      rw [if_neg hh]
      omega

theorem parses_Itoa (x : Int) (h : minInt ≤ x ∧ x ≤ maxInt) : ParsesAsInt (Itoa x) := by
  obtain ⟨h1, h2⟩ := Itoa_spec x
  exact ⟨h1, by rw [h2]; exact h.1, by rw [h2]; exact h.2⟩

/-- A comma-joined sequence of integer numerals in range is accepted, and the
result lists their values in order. -/
theorem convertTopicIDParam_accepts (segs : List String)
    (h : ∀ seg ∈ segs, ParsesAsInt seg) :
    convertTopicIDParam (joinWith ',' segs) = (some (segs.map numeralValue), none) := by
  cases segs with
  | nil => simp [convertTopicIDParam, joinWith]
  | cons s rest =>
    have hs := h s (by simp)
    have hne := joinWith_ne_empty ',' s rest (data_ne_nil_of_isNumeral s hs.1)
    have hsplit := Split_joinWith ',' (s :: rest) (by simp)
      (fun seg hseg => comma_not_mem_of_isNumeral seg (h seg hseg).1)
    unfold convertTopicIDParam
    dsimp only
    rw [if_pos hne, hsplit, convertLoop_of_parses _ _ h, List.nil_append]

/-- A non-empty parameter with a segment that is not an integer numeral in
range is rejected with the wrapped `Atoi` error of such a segment. -/
theorem convertTopicIDParam_reject (s : String) (hne : s ≠ "")
    (h : ∃ seg ∈ Split s ',', ¬ ParsesAsInt seg) :
    ∃ seg k, seg ∈ Split s ',' ∧ ¬ ParsesAsInt seg ∧
      convertTopicIDParam s =
        (none, some (.wrap (.numError "Atoi" seg k) "Request data invalid")) := by
  obtain ⟨seg, k, hm, hn, he⟩ := convertLoop_of_not_parses (Split s ',') [] h
  refine ⟨seg, k, hm, hn, ?_⟩
  unfold convertTopicIDParam
  dsimp only
  rw [if_pos hne, he]

/-! ## Claims about `convertTopicIDParam` -/

/-- C1 (as amended): for every comma-joined sequence of base-10 integer
numerals whose values fit Go's `int` (the empty sequence, i.e. the empty
string, included), `convertTopicIDParam` returns no error and exactly the
values of the numerals, in input order, without removing duplicates and
without sorting; for the empty string this is the empty non-nil list. In
particular, joining the base-10 renderings of any list of integers in the
range of `int` and parsing the result gives back that list. -/
theorem convertTopicIDParam_of_numerals :
    (∀ segs : List String, (∀ seg ∈ segs, ParsesAsInt seg) →
      convertTopicIDParam (joinWith ',' segs) = (some (segs.map numeralValue), none)) ∧
    (∀ xs : List Int, (∀ x ∈ xs, minInt ≤ x ∧ x ≤ maxInt) →
      convertTopicIDParam (joinWith ',' (xs.map Itoa)) = (some xs, none)) ∧
    convertTopicIDParam "" = (some [], none) := by
  refine ⟨convertTopicIDParam_accepts, ?_, rfl⟩
  intro xs hxs
  have hp : ∀ seg ∈ xs.map Itoa, ParsesAsInt seg := by
    intro seg hseg
    obtain ⟨x, hx, rfl⟩ := List.mem_map.1 hseg
    exact parses_Itoa x (hxs x hx)
  have hv : (xs.map Itoa).map numeralValue = xs := by
    rw [List.map_map]
    conv_rhs => rw [← List.map_id xs]
    exact List.map_congr_left (fun x _ => (Itoa_spec x).2)
  rw [convertTopicIDParam_accepts _ hp, hv]

/-- Witness for C1: duplicates are kept, the order is the input order, signs
and leading zeros are read; the integers `3, 1, 1, -7` come back from their
rendering `3,1,1,-7`. -/
theorem convertTopicIDParam_of_numerals_witness :
    convertTopicIDParam "3,1,1,-7,+2,007" = (some [3, 1, 1, -7, 2, 7], none) ∧
    (joinWith ',' (List.map Itoa [3, 1, 1, -7]) = "3,1,1,-7" ∧
      convertTopicIDParam (joinWith ',' (List.map Itoa [3, 1, 1, -7])) =
        (some [3, 1, 1, -7], none)) :=
  ⟨convertTopicIDParam_of_numerals.1 ["3", "1", "1", "-7", "+2", "007"] (by decide),
   by decide,
   convertTopicIDParam_of_numerals.2.1 [3, 1, 1, -7] (by decide)⟩

/-- C1 as stated fails: `9223372036854775808` is a base-10 integer, but it
does not fit a 64-bit `int`, so the parser answers with an error and a `nil`
list instead of the integer. -/
theorem convertTopicIDParam_out_of_range :
    isNumeral "9223372036854775808" = true ∧
    numeralValue "9223372036854775808" = 9223372036854775808 ∧
    convertTopicIDParam "9223372036854775808" =
      (none, some (.wrap (.numError "Atoi" "9223372036854775808" .outOfRange)
        "Request data invalid")) := by
  decide

/-- C2: when the parameter is non-empty and some comma-separated segment is
not a base-10 integer that fits `int` (an empty segment included),
`convertTopicIDParam` returns a `nil` list together with an error, namely the
`Atoi` error of such a segment wrapped with "Request data invalid"; nothing of
the segments converted before it is returned. -/
theorem convertTopicIDParam_of_bad_segment (s : String) (hne : s ≠ "")
    (h : ∃ seg ∈ Split s ',', ¬ ParsesAsInt seg) :
    ∃ seg k, seg ∈ Split s ',' ∧ ¬ ParsesAsInt seg ∧
      convertTopicIDParam s =
        (none, some (.wrap (.numError "Atoi" seg k) "Request data invalid")) := by
  obtain ⟨seg, k, hm, hn, he⟩ := convertLoop_of_not_parses (Split s ',') [] h
  refine ⟨seg, k, hm, hn, ?_⟩
  unfold convertTopicIDParam
  dsimp only
  rw [if_pos hne, he]

/-- Witness for C2 at `"1,2,x"` (the two good segments before `x` are not
returned), at `"1,,2"` (an empty segment) and at `"1,"` (a trailing comma). -/
theorem convertTopicIDParam_of_bad_segment_witness :
    (∃ seg k, seg ∈ Split "1,2,x" ',' ∧ ¬ ParsesAsInt seg ∧
      convertTopicIDParam "1,2,x" =
        (none, some (.wrap (.numError "Atoi" seg k) "Request data invalid"))) ∧
    (∃ seg k, seg ∈ Split "1,,2" ',' ∧ ¬ ParsesAsInt seg ∧
      convertTopicIDParam "1,,2" =
        (none, some (.wrap (.numError "Atoi" seg k) "Request data invalid"))) ∧
    (∃ seg k, seg ∈ Split "1," ',' ∧ ¬ ParsesAsInt seg ∧
      convertTopicIDParam "1," =
        (none, some (.wrap (.numError "Atoi" seg k) "Request data invalid"))) :=
  ⟨convertTopicIDParam_of_bad_segment "1,2,x" (by decide) ⟨"x", by decide, by decide⟩,
   convertTopicIDParam_of_bad_segment "1,,2" (by decide) ⟨"", by decide, by decide⟩,
   convertTopicIDParam_of_bad_segment "1," (by decide) ⟨"", by decide, by decide⟩⟩

/-! ## Error texts -/

theorem wrap_Error (quote : String → String) (e : GoError) (msg : String) :
    (GoError.wrap e msg).Error quote = msg ++ ": " ++ e.Error quote := rfl

theorem wrap_Error_ne_empty (quote : String → String) (e : GoError) (msg : String) :
    (GoError.wrap e msg).Error quote ≠ "" := by
  intro h
  have hl := congrArg String.length h
  rw [wrap_Error, String.length_append, String.length_append] at hl
  have h2 : (": " : String).length = 2 := rfl
  have h0 : ("" : String).length = 0 := rfl
  omega

theorem convertLoop_error_is_wrap (segs : List String) (acc : List Int)
    (r : Option (List Int)) (err : GoError) (h : convertLoop segs acc = (r, some err)) :
    r = none ∧ ∃ e, err = .wrap e "Request data invalid" := by
  induction segs generalizing acc with
  | nil => simp [convertLoop] at h
  | cons s rest ih =>
    unfold convertLoop at h
    split at h
    · simp only [Prod.mk.injEq, Option.some.injEq] at h
      exact ⟨h.1.symm, _, h.2.symm⟩
    · exact ih _ h

theorem convertTopicIDParam_error_is_wrap (s : String) (r : Option (List Int))
    (err : GoError) (h : convertTopicIDParam s = (r, some err)) :
    r = none ∧ ∃ e, err = .wrap e "Request data invalid" := by
  unfold convertTopicIDParam at h
  dsimp only at h
  split at h
  · exact convertLoop_error_is_wrap _ _ _ _ h
  · simp at h

/-! ## The branches of the handlers -/

theorem mutateNews_of_bind_error (quote : String → String) (c : EchoContext)
    (mh : NewsMutationHandler) (e : GoError) (hb : c.bindMutate = .error e) :
    mutateNews quote c mh =
      ⟨[], .json 400 ⟨none, "Request data invalid: " ++ e.Error quote, "Fail"⟩⟩ := by
  unfold mutateNews
  rw [hb]
  rfl

theorem mutateNews_of_nil_payload (quote : String → String) (c : EchoContext)
    (mh : NewsMutationHandler) (req : MutateNewsRequest) (hb : c.bindMutate = .ok req)
    (hn : req.News = none) :
    mutateNews quote c mh = ⟨[], .nilDereference⟩ := by
  unfold mutateNews
  rw [hb]
  dsimp only
  rw [hn]

theorem mutateNews_of_mutation_error (quote : String → String) (c : EchoContext)
    (mh : NewsMutationHandler) (req : MutateNewsRequest) (n : News) (calls : List Event)
    (r : Option News) (e : GoError) (hb : c.bindMutate = .ok req) (hn : req.News = some n)
    (hm : mh (resolveContext c) { n with TopicIDs := req.NewsTopic } = (calls, r, some e)) :
    mutateNews quote c mh =
      ⟨.mutation (resolveContext c) { n with TopicIDs := req.NewsTopic } :: calls,
        .json 500 ⟨none, e.Error quote, "Fail"⟩⟩ := by
  unfold mutateNews
  rw [hb]
  dsimp only
  rw [hn]
  dsimp only
  rw [hm]

theorem mutateNews_of_mutation_ok (quote : String → String) (c : EchoContext)
    (mh : NewsMutationHandler) (req : MutateNewsRequest) (n : News) (calls : List Event)
    (r : Option News) (hb : c.bindMutate = .ok req) (hn : req.News = some n)
    (hm : mh (resolveContext c) { n with TopicIDs := req.NewsTopic } = (calls, r, none)) :
    mutateNews quote c mh =
      ⟨.mutation (resolveContext c) { n with TopicIDs := req.NewsTopic } :: calls,
        .json 200 ⟨some (.mutateNewsResponse r), "", "OK"⟩⟩ := by
  unfold mutateNews
  rw [hb]
  dsimp only
  rw [hn]
  dsimp only
  rw [hm]

theorem insertMutation_apply (uc : NewsUseCase) (ctx : GoContext) (n : News) :
    insertMutation uc ctx n =
      ([.insertNews ctx { n with Status := "draft" }],
        uc.InsertNews ctx { n with Status := "draft" }) := rfl

theorem updateMutation_of_parses (c : EchoContext) (uc : NewsUseCase) (ctx : GoContext)
    (n : News) (hid : ParsesAsInt (c.Param "id")) :
    updateMutation c uc ctx n =
      ([.updateNews ctx { n with ID := numeralValue (c.Param "id") }],
        uc.UpdateNews ctx { n with ID := numeralValue (c.Param "id") }) := by
  have hr := numeralValue_range _ hid
  unfold updateMutation
  dsimp only
  rw [Atoi_of_parses _ hid]
  dsimp only
  rw [toInt64_of_range _ hr.1 hr.2]

theorem updateMutation_of_not_parses (c : EchoContext) (uc : NewsUseCase) (ctx : GoContext)
    (n : News) (hid : ¬ ParsesAsInt (c.Param "id")) :
    ∃ k, updateMutation c uc ctx n =
      ([], none, some (.wrap (.numError "Atoi" (c.Param "id") k) "id must integer")) := by
  obtain ⟨k, hk⟩ := Atoi_of_not_parses _ hid
  refine ⟨k, ?_⟩
  unfold updateMutation
  dsimp only
  rw [hk]

theorem FetchNews_of_bind_error (quote : String → String) (c : EchoContext)
    (uc : NewsUseCase) (e : GoError) (hb : c.bindFetch = .error e) :
    FetchNews quote c uc =
      ⟨[], .json 400 ⟨none, "Request data invalid: " ++ e.Error quote, "Fail"⟩⟩ := by
  unfold FetchNews
  rw [hb]
  rfl

theorem FetchNews_of_topic_error (quote : String → String) (c : EchoContext)
    (uc : NewsUseCase) (params : FetchNewsRequest) (r : Option (List Int)) (err : GoError)
    (hb : c.bindFetch = .ok params)
    (ht : convertTopicIDParam params.Topic = (r, some err)) :
    FetchNews quote c uc = ⟨[], .json 400 ⟨none, err.Error quote, "Fail"⟩⟩ := by
  unfold FetchNews
  rw [hb]
  dsimp only
  rw [ht]

/-- The criteria `FetchNews` assembles from the bound query and the parsed
topic filter. -/
theorem FetchNews_of_topic_ok (quote : String → String) (c : EchoContext)
    (uc : NewsUseCase) (params : FetchNewsRequest) (topicIDs : Option (List Int))
    (hb : c.bindFetch = .ok params)
    (ht : convertTopicIDParam params.Topic = (topicIDs, none)) :
    FetchNews quote c uc =
      match uc.FetchNewsByParams (resolveContext c)
          ⟨some ⟨params.Limit, params.NextCursor⟩, params.Status, topicIDs⟩ with
      | (_, _, some err) =>
        ⟨[.fetchNewsByParams (resolveContext c)
            ⟨some ⟨params.Limit, params.NextCursor⟩, params.Status, topicIDs⟩],
          .json 500 ⟨none, err.Error quote, "Fail"⟩⟩
      | (result, pagination, none) =>
        ⟨[.fetchNewsByParams (resolveContext c)
            ⟨some ⟨params.Limit, params.NextCursor⟩, params.Status, topicIDs⟩],
          .json 200 ⟨some (.newsResponse result pagination), "", "OK"⟩⟩ := by
  unfold FetchNews
  rw [hb]
  dsimp only
  rw [ht]

theorem DeleteNews_of_not_parses (quote : String → String) (c : EchoContext)
    (uc : NewsUseCase) (hid : ¬ ParsesAsInt (c.Param "id")) :
    ∃ k, DeleteNews quote c uc =
      ⟨[], .json 400 ⟨none,
        "Topic ID must int: " ++ (GoError.numError "Atoi" (c.Param "id") k).Error quote,
        "Fail"⟩⟩ := by
  obtain ⟨k, hk⟩ := Atoi_of_not_parses _ hid
  refine ⟨k, ?_⟩
  unfold DeleteNews
  dsimp only
  rw [hk]
  rfl

theorem DeleteNews_of_parses (quote : String → String) (c : EchoContext)
    (uc : NewsUseCase) (hid : ParsesAsInt (c.Param "id")) :
    DeleteNews quote c uc =
      match uc.DeleteNews (resolveContext c) (numeralValue (c.Param "id")) with
      | (_, some err) =>
        ⟨[.deleteNews (resolveContext c) (numeralValue (c.Param "id"))],
          .json 500 ⟨none, "Delete topic failed: " ++ err.Error quote, "Fail"⟩⟩
      | (ok, none) =>
        ⟨[.deleteNews (resolveContext c) (numeralValue (c.Param "id"))],
          .json 200 ⟨some (.deleteNewsResponse ok), "", "OK"⟩⟩ := by
  have hr := numeralValue_range _ hid
  unfold DeleteNews
  dsimp only
  rw [Atoi_of_parses _ hid]
  dsimp only
  rw [toInt64_of_range _ hr.1 hr.2]
  rfl

/-! ## The response envelope -/

theorem fail_ne_ok : ("Fail" : String) ≠ "OK" := by decide

theorem envelope_fail (m : String) (h : m ≠ "") : EnvelopeInvariant ⟨none, m, "Fail"⟩ := by
  refine ⟨?_, ?_, ?_⟩
  · exact ⟨fun _ => h, fun _ => rfl⟩
  · exact ⟨fun _ => rfl, fun _ => h⟩
  · exact ⟨fun e => absurd e fail_ne_ok, fun e => absurd rfl e.1⟩

theorem envelope_ok (d : Payload) : EnvelopeInvariant ⟨some d, "", "OK"⟩ := by
  refine ⟨?_, ?_, ?_⟩
  · exact ⟨fun e => absurd e.symm fail_ne_ok, fun e => absurd rfl e⟩
  · exact ⟨fun e => absurd rfl e, fun e => absurd e (by simp)⟩
  · exact ⟨fun _ => ⟨by simp, rfl⟩, fun _ => rfl⟩

theorem mem_emitted_iff (r : Run) (x : Nat × GeneralResponse) :
    x ∈ r.emitted ↔ r.outcome = .json x.1 x.2 := by
  obtain ⟨t, o⟩ := r
  cases o with
  | json code body =>
    obtain ⟨a, b⟩ := x
    simp [Run.emitted, Prod.ext_iff, eq_comm]
  | nilDereference => simp [Run.emitted]

/-! ## Create and update on a request that carries a news payload -/

/-- The run of `InsertNews` on a bound body with a news payload: the record handed to the
collaborator is the payload with the request's topic IDs attached and the
status overwritten by "draft". -/
theorem InsertNews_of_payload (quote : String → String) (c : EchoContext) (uc : NewsUseCase)
    (req : MutateNewsRequest) (n : News) (hb : c.bindMutate = .ok req)
    (hn : req.News = some n) :
    InsertNews quote c uc =
      match uc.InsertNews (resolveContext c)
          { n with TopicIDs := req.NewsTopic, Status := "draft" } with
      | (_, some err) =>
        ⟨[.mutation (resolveContext c) { n with TopicIDs := req.NewsTopic },
          .insertNews (resolveContext c)
            { n with TopicIDs := req.NewsTopic, Status := "draft" }],
          .json 500 ⟨none, err.Error quote, "Fail"⟩⟩
      | (result, none) =>
        ⟨[.mutation (resolveContext c) { n with TopicIDs := req.NewsTopic },
          .insertNews (resolveContext c)
            { n with TopicIDs := req.NewsTopic, Status := "draft" }],
          .json 200 ⟨some (.mutateNewsResponse result), "", "OK"⟩⟩ := by
  rcases hu : uc.InsertNews (resolveContext c)
    { n with TopicIDs := req.NewsTopic, Status := "draft" } with ⟨r, oe⟩
  have hm : insertMutation uc (resolveContext c) { n with TopicIDs := req.NewsTopic } =
      ([.insertNews (resolveContext c)
        { n with TopicIDs := req.NewsTopic, Status := "draft" }], r, oe) := by
    rw [insertMutation_apply]
    exact congrArg _ hu
  unfold InsertNews
  cases oe with
  | none => exact mutateNews_of_mutation_ok quote c _ req n _ r hb hn hm
  | some e => exact mutateNews_of_mutation_error quote c _ req n _ r e hb hn hm

/-- The run of `UpdateNews` on a bound body with a news payload and a path id that is an
integer numeral: the record handed to the collaborator is the payload with the
topic IDs attached and `ID` set to the parsed id. -/
theorem UpdateNews_of_payload_parses (quote : String → String) (c : EchoContext)
    (uc : NewsUseCase) (req : MutateNewsRequest) (n : News) (hb : c.bindMutate = .ok req)
    (hn : req.News = some n) (hid : ParsesAsInt (c.Param "id")) :
    UpdateNews quote c uc =
      match uc.UpdateNews (resolveContext c)
          { n with TopicIDs := req.NewsTopic, ID := numeralValue (c.Param "id") } with
      | (_, some err) =>
        ⟨[.mutation (resolveContext c) { n with TopicIDs := req.NewsTopic },
          .updateNews (resolveContext c)
            { n with TopicIDs := req.NewsTopic, ID := numeralValue (c.Param "id") }],
          .json 500 ⟨none, err.Error quote, "Fail"⟩⟩
      | (result, none) =>
        ⟨[.mutation (resolveContext c) { n with TopicIDs := req.NewsTopic },
          .updateNews (resolveContext c)
            { n with TopicIDs := req.NewsTopic, ID := numeralValue (c.Param "id") }],
          .json 200 ⟨some (.mutateNewsResponse result), "", "OK"⟩⟩ := by
  rcases hu : uc.UpdateNews (resolveContext c)
    { n with TopicIDs := req.NewsTopic, ID := numeralValue (c.Param "id") } with ⟨r, oe⟩
  have hm : updateMutation c uc (resolveContext c) { n with TopicIDs := req.NewsTopic } =
      ([.updateNews (resolveContext c)
        { n with TopicIDs := req.NewsTopic, ID := numeralValue (c.Param "id") }], r, oe) := by
    rw [updateMutation_of_parses c uc _ _ hid]
    exact congrArg _ hu
  unfold UpdateNews
  cases oe with
  | none => exact mutateNews_of_mutation_ok quote c _ req n _ r hb hn hm
  | some e => exact mutateNews_of_mutation_error quote c _ req n _ r e hb hn hm

/-- The run of `UpdateNews` on a bound body with a news payload and a path id that is not
an integer numeral: the mutation function returns the wrapped parse error
without calling the collaborator, and the pipeline answers 500. -/
theorem UpdateNews_of_payload_not_parses (quote : String → String) (c : EchoContext)
    (uc : NewsUseCase) (req : MutateNewsRequest) (n : News) (hb : c.bindMutate = .ok req)
    (hn : req.News = some n) (hid : ¬ ParsesAsInt (c.Param "id")) :
    ∃ k, UpdateNews quote c uc =
      ⟨[.mutation (resolveContext c) { n with TopicIDs := req.NewsTopic }],
        .json 500 ⟨none,
          "id must integer: " ++ (GoError.numError "Atoi" (c.Param "id") k).Error quote,
          "Fail"⟩⟩ := by
  obtain ⟨k, hk⟩ := updateMutation_of_not_parses c uc (resolveContext c)
    { n with TopicIDs := req.NewsTopic } hid
  refine ⟨k, ?_⟩
  unfold UpdateNews
  rw [mutateNews_of_mutation_error quote c _ req n _ _ _ hb hn hk]
  rfl

/-! ## The envelope invariant along a run -/

theorem mutateNews_invariant (quote : String → String) (c : EchoContext)
    (mh : NewsMutationHandler)
    (hmh : ∀ req n calls r e, c.bindMutate = .ok req → req.News = some n →
      mh (resolveContext c) { n with TopicIDs := req.NewsTopic } = (calls, r, some e) →
      e.Error quote ≠ "")
    (x : Nat × GeneralResponse) (hx : x ∈ (mutateNews quote c mh).emitted) :
    EnvelopeInvariant x.2 := by
  rw [mem_emitted_iff] at hx
  cases hb : c.bindMutate with
  | error e =>
    rw [mutateNews_of_bind_error quote c mh e hb] at hx
    injection hx with _ h2
    rw [← h2]
    exact envelope_fail _ (wrap_Error_ne_empty quote e "Request data invalid")
  | ok req =>
    cases hn : req.News with
    | none =>
      rw [mutateNews_of_nil_payload quote c mh req hb hn] at hx
      exact absurd hx (by simp)
    | some n =>
      rcases hm : mh (resolveContext c) { n with TopicIDs := req.NewsTopic } with
        ⟨calls, r, oe⟩
      cases oe with
      | none =>
        rw [mutateNews_of_mutation_ok quote c mh req n calls r hb hn hm] at hx
        injection hx with _ h2
        rw [← h2]
        exact envelope_ok _
      | some e =>
        rw [mutateNews_of_mutation_error quote c mh req n calls r e hb hn hm] at hx
        injection hx with _ h2
        rw [← h2]
        exact envelope_fail _ (hmh req n calls r e hb hn hm)

theorem FetchNews_invariant (quote : String → String) (c : EchoContext) (uc : NewsUseCase)
    (hF : ∀ ctx p e, Event.fetchNewsByParams ctx p ∈ (FetchNews quote c uc).trace →
      (uc.FetchNewsByParams ctx p).2.2 = some e → e.Error quote ≠ "")
    (x : Nat × GeneralResponse) (hx : x ∈ (FetchNews quote c uc).emitted) :
    EnvelopeInvariant x.2 := by
  rw [mem_emitted_iff] at hx
  cases hb : c.bindFetch with
  | error e =>
    rw [FetchNews_of_bind_error quote c uc e hb] at hx
    injection hx with _ h2
    rw [← h2]
    exact envelope_fail _ (wrap_Error_ne_empty quote e "Request data invalid")
  | ok params =>
    rcases ht : convertTopicIDParam params.Topic with ⟨ids, oe⟩
    cases oe with
    | some err =>
      rw [FetchNews_of_topic_error quote c uc params ids err hb ht] at hx
      obtain ⟨_, e, he⟩ := convertTopicIDParam_error_is_wrap _ _ _ ht
      injection hx with _ h2
      rw [← h2, he]
      exact envelope_fail _ (wrap_Error_ne_empty quote e "Request data invalid")
    | none =>
      have hrun := FetchNews_of_topic_ok quote c uc params ids hb ht
      rcases hu : uc.FetchNewsByParams (resolveContext c)
        ⟨some ⟨params.Limit, params.NextCursor⟩, params.Status, ids⟩ with ⟨r, pg, oe⟩
      rw [hu] at hrun
      cases oe with
      | none =>
        rw [hrun] at hx
        injection hx with _ h2
        rw [← h2]
        exact envelope_ok _
      | some e =>
        have hne : e.Error quote ≠ "" := by
          refine hF (resolveContext c)
            ⟨some ⟨params.Limit, params.NextCursor⟩, params.Status, ids⟩ e ?_ ?_
          · rw [hrun]
            exact List.mem_singleton.2 rfl
          · rw [hu]
        rw [hrun] at hx
        injection hx with _ h2
        rw [← h2]
        exact envelope_fail _ hne

theorem DeleteNews_invariant (quote : String → String) (c : EchoContext) (uc : NewsUseCase)
    (x : Nat × GeneralResponse) (hx : x ∈ (DeleteNews quote c uc).emitted) :
    EnvelopeInvariant x.2 := by
  rw [mem_emitted_iff] at hx
  by_cases hid : ParsesAsInt (c.Param "id")
  · rw [DeleteNews_of_parses quote c uc hid] at hx
    rcases hu : uc.DeleteNews (resolveContext c) (numeralValue (c.Param "id")) with ⟨b, oe⟩
    rw [hu] at hx
    cases oe with
    | none =>
      injection hx with _ h2
      rw [← h2]
      exact envelope_ok _
    | some e =>
      injection hx with _ h2
      rw [← h2]
      exact envelope_fail _ (wrap_Error_ne_empty quote e "Delete topic failed")
  · obtain ⟨k, hk⟩ := DeleteNews_of_not_parses quote c uc hid
    rw [hk] at hx
    injection hx with _ h2
    rw [← h2]
    exact envelope_fail _ (wrap_Error_ne_empty quote _ "Topic ID must int")

theorem InsertNews_trace_of_payload (quote : String → String) (c : EchoContext)
    (uc : NewsUseCase) (req : MutateNewsRequest) (n : News) (hb : c.bindMutate = .ok req)
    (hn : req.News = some n) :
    (InsertNews quote c uc).trace =
      [.mutation (resolveContext c) { n with TopicIDs := req.NewsTopic },
       .insertNews (resolveContext c)
         { n with TopicIDs := req.NewsTopic, Status := "draft" }] := by
  rw [InsertNews_of_payload quote c uc req n hb hn]
  rcases uc.InsertNews (resolveContext c)
    { n with TopicIDs := req.NewsTopic, Status := "draft" } with ⟨r, oe⟩
  cases oe <;> rfl

theorem UpdateNews_trace_of_payload_parses (quote : String → String) (c : EchoContext)
    (uc : NewsUseCase) (req : MutateNewsRequest) (n : News) (hb : c.bindMutate = .ok req)
    (hn : req.News = some n) (hid : ParsesAsInt (c.Param "id")) :
    (UpdateNews quote c uc).trace =
      [.mutation (resolveContext c) { n with TopicIDs := req.NewsTopic },
       .updateNews (resolveContext c)
         { n with TopicIDs := req.NewsTopic, ID := numeralValue (c.Param "id") }] := by
  rw [UpdateNews_of_payload_parses quote c uc req n hb hn hid]
  rcases uc.UpdateNews (resolveContext c)
    { n with TopicIDs := req.NewsTopic, ID := numeralValue (c.Param "id") } with ⟨r, oe⟩
  cases oe <;> rfl

/-- C3 (as amended): in a run of `FetchNews`, `InsertNews` or `UpdateNews`, if
the error returned by the collaborator call the run made (when it made one and
the call failed) has a non-empty message, then every response envelope the run
emitted satisfies the envelope invariant: `Message` is "Fail" iff
`ErrorMessage` is non-empty iff `Data` is absent, and `Message` is "OK" iff
`Data` is present and `ErrorMessage` is empty. Nothing is assumed about what
the collaborator answers to calls the run did not make. Every envelope emitted
by `DeleteNews` satisfies the invariant without any assumption. -/
theorem envelope_invariant_of_nonempty_errors (quote : String → String) (c : EchoContext)
    (uc : NewsUseCase) :
    ((∀ ctx p e, Event.fetchNewsByParams ctx p ∈ (FetchNews quote c uc).trace →
        (uc.FetchNewsByParams ctx p).2.2 = some e → e.Error quote ≠ "") →
      ∀ x ∈ (FetchNews quote c uc).emitted, EnvelopeInvariant x.2) ∧
    ((∀ ctx n e, Event.insertNews ctx n ∈ (InsertNews quote c uc).trace →
        (uc.InsertNews ctx n).2 = some e → e.Error quote ≠ "") →
      ∀ x ∈ (InsertNews quote c uc).emitted, EnvelopeInvariant x.2) ∧
    ((∀ ctx n e, Event.updateNews ctx n ∈ (UpdateNews quote c uc).trace →
        (uc.UpdateNews ctx n).2 = some e → e.Error quote ≠ "") →
      ∀ x ∈ (UpdateNews quote c uc).emitted, EnvelopeInvariant x.2) ∧
    (∀ x ∈ (DeleteNews quote c uc).emitted, EnvelopeInvariant x.2) := by
  refine ⟨?_, ?_, ?_, ?_⟩
  · intro hF x hx
    exact FetchNews_invariant quote c uc hF x hx
  · intro hI x hx
    refine mutateNews_invariant quote c (insertMutation uc) ?_ x hx
    intro req n calls r e hb hn hm
    rw [insertMutation_apply] at hm
    injection hm with _ h2
    refine hI (resolveContext c) { n with TopicIDs := req.NewsTopic, Status := "draft" } e ?_ ?_
    · rw [InsertNews_trace_of_payload quote c uc req n hb hn]
      simp
    · exact congrArg Prod.snd h2
  · intro hU x hx
    refine mutateNews_invariant quote c (updateMutation c uc) ?_ x hx
    intro req n calls r e hb hn hm
    by_cases hid : ParsesAsInt (c.Param "id")
    · rw [updateMutation_of_parses c uc _ _ hid] at hm
      injection hm with _ h2
      refine hU (resolveContext c)
        { n with TopicIDs := req.NewsTopic, ID := numeralValue (c.Param "id") } e ?_ ?_
      · rw [UpdateNews_trace_of_payload_parses quote c uc req n hb hn hid]
        simp
      · exact congrArg Prod.snd h2
    · obtain ⟨k, hk⟩ := updateMutation_of_not_parses c uc (resolveContext c)
        { n with TopicIDs := req.NewsTopic } hid
      rw [hk] at hm
      injection hm with _ h2
      injection h2 with _ h3
      injection h3 with h4
      rw [← h4]
      exact wrap_Error_ne_empty quote _ _
  · exact DeleteNews_invariant quote c uc

/-- Witness for C3, on a collaborator whose `InsertNews` answers with the empty
message for the record with ID 999 only: a create request for another record,
answered "db down", and a fetch request both satisfy the invariant. -/
theorem envelope_invariant_of_nonempty_errors_witness :
    ((InsertNews sampleQuote (mutationContext "7" ⟨some sampleNews, some [1, 2]⟩)
        pickyUseCase).emitted = [(500, ⟨none, "db down", "Fail"⟩)] ∧
      EnvelopeInvariant ⟨none, "db down", "Fail"⟩) ∧
    ((FetchNews sampleQuote (queryContext "" ⟨10, "", "draft", "1,2"⟩)
        pickyUseCase).emitted =
        [(200, ⟨some (.newsResponse (some []) (some ⟨10, ""⟩)), "", "OK"⟩)] ∧
      EnvelopeInvariant ⟨some (.newsResponse (some []) (some ⟨10, ""⟩)), "", "OK"⟩) ∧
    (pickyUseCase.InsertNews .background ⟨999, "draft", none, "B"⟩).2 = some (.app 0 "") :=
  ⟨⟨by decide,
    (envelope_invariant_of_nonempty_errors sampleQuote
      (mutationContext "7" ⟨some sampleNews, some [1, 2]⟩) pickyUseCase).2.1
      (fun ctx n e hmem herr => by
        have ht : (InsertNews sampleQuote
            (mutationContext "7" ⟨some sampleNews, some [1, 2]⟩) pickyUseCase).trace =
            [.mutation (.request 1) ⟨0, "published", some [1, 2], "A"⟩,
             .insertNews (.request 1) ⟨0, "draft", some [1, 2], "A"⟩] := by decide
        rw [ht] at hmem
        simp only [List.mem_cons, reduceCtorEq, Event.insertNews.injEq, List.mem_nil_iff,
          or_false, false_or] at hmem
        obtain ⟨_, rfl⟩ := hmem
        have he : e = .app 0 "db down" := by
          simpa [pickyUseCase] using herr.symm
        rw [he]
        decide)
      (500, ⟨none, "db down", "Fail"⟩) (by decide)⟩,
   ⟨by decide,
    (envelope_invariant_of_nonempty_errors sampleQuote
      (queryContext "" ⟨10, "", "draft", "1,2"⟩) pickyUseCase).1
      (fun ctx p e _ herr => by
        simp [pickyUseCase] at herr)
      (200, ⟨some (.newsResponse (some []) (some ⟨10, ""⟩)), "", "OK"⟩) (by decide)⟩,
   rfl⟩

/-- C3 as stated fails: a collaborator error whose message is empty is
forwarded verbatim by `InsertNews`, giving an envelope with `Message` "Fail"
and an empty `ErrorMessage`. -/
theorem InsertNews_empty_error_message :
    (InsertNews sampleQuote (mutationContext "7" ⟨some sampleNews, some [1, 2]⟩)
        (failingUseCase (.app 0 ""))).emitted =
      [(500, ⟨none, "", "Fail"⟩)] ∧
    ¬ EnvelopeInvariant ⟨none, "", "Fail"⟩ := by
  decide

/-- The create scenario of the specification: the body asks for status
"published" with topics `[1, 2]`; the collaborator receives status "draft"
and topic IDs `[1, 2]`, the other fields as bound. -/
theorem InsertNews_sample_trace :
    (InsertNews sampleQuote (mutationContext "" ⟨some sampleNews, some [1, 2]⟩)
        (succeedingUseCase true)).collaboratorCalls =
      [.insertNews (.request 1)
        { ID := 0, Status := "draft", TopicIDs := some [1, 2], Content := "A" }] := by
  decide

/-! ## Claims about the handlers -/

/-- C4 at its failing input: a create request whose body binds but carries no
news payload (`News` is `nil`, `newsTopic` is `[1, 2]`) faults at the
assignment `news.TopicIDs = req.NewsTopic`; the mutation function is never run
and the collaborator's `InsertNews` is invoked zero times, not once. -/
theorem InsertNews_nil_payload (quote : String → String) (uc : NewsUseCase) :
    InsertNews quote (mutationContext "" ⟨none, some [1, 2]⟩) uc = ⟨[], .nilDereference⟩ ∧
    (InsertNews quote (mutationContext "" ⟨none, some [1, 2]⟩) uc).collaboratorCalls = [] :=
  ⟨rfl, rfl⟩

/-- C5 at its failing input: an update request whose body binds but carries no
news payload faults before the path id is looked at; with id `abc` no 500
envelope is written, and with id `42` the collaborator's `UpdateNews` is not
invoked. -/
theorem UpdateNews_nil_payload (quote : String → String) (uc : NewsUseCase) :
    UpdateNews quote (mutationContext "abc" ⟨none, some [1, 2]⟩) uc = ⟨[], .nilDereference⟩ ∧
    (UpdateNews quote (mutationContext "abc" ⟨none, some [1, 2]⟩) uc).emitted = [] ∧
    UpdateNews quote (mutationContext "42" ⟨none, some [1, 2]⟩) uc = ⟨[], .nilDereference⟩ ∧
    (UpdateNews quote (mutationContext "42" ⟨none, some [1, 2]⟩) uc).collaboratorCalls = [] :=
  ⟨rfl, rfl, rfl, rfl⟩

/-- C10 at its failing input: for a bound body without a news payload the
pipeline does not attach the topic IDs; it faults on the `nil` pointer for
every mutation function, and emits no response envelope. -/
theorem mutateNews_nil_payload (quote : String → String) (mh : NewsMutationHandler) :
    mutateNews quote (mutationContext "" ⟨none, some [1, 2]⟩) mh = ⟨[], .nilDereference⟩ ∧
    (mutateNews quote (mutationContext "" ⟨none, some [1, 2]⟩) mh).emitted = [] :=
  ⟨rfl, rfl⟩

/-- C6 (as amended): the validation errors a handler detects itself give a 400
response with `Message` "Fail" and no data: a body or query that does not bind
(`FetchNews`, `InsertNews`, `UpdateNews`), a topic parameter with a segment
that is not an integer (`FetchNews`), and a path id that is not an integer in
`DeleteNews`. In `UpdateNews` a path id that is not an integer is reported by
the mutation function, and a request with a news payload gets a 500 response
with `Message` "Fail". -/
theorem validation_error_status (quote : String → String) (c : EchoContext)
    (uc : NewsUseCase) :
    (∀ e, c.bindFetch = .error e →
      (FetchNews quote c uc).outcome =
        .json 400 ⟨none, "Request data invalid: " ++ e.Error quote, "Fail"⟩) ∧
    (∀ e, c.bindMutate = .error e →
      (InsertNews quote c uc).outcome =
        .json 400 ⟨none, "Request data invalid: " ++ e.Error quote, "Fail"⟩ ∧
      (UpdateNews quote c uc).outcome =
        .json 400 ⟨none, "Request data invalid: " ++ e.Error quote, "Fail"⟩) ∧
    (∀ params, c.bindFetch = .ok params → params.Topic ≠ "" →
      (∃ seg ∈ Split params.Topic ',', ¬ ParsesAsInt seg) →
      ∃ msg, (FetchNews quote c uc).outcome = .json 400 ⟨none, msg, "Fail"⟩) ∧
    (¬ ParsesAsInt (c.Param "id") →
      ∃ msg, (DeleteNews quote c uc).outcome = .json 400 ⟨none, msg, "Fail"⟩) ∧
    (∀ req n, c.bindMutate = .ok req → req.News = some n → ¬ ParsesAsInt (c.Param "id") →
      ∃ msg, (UpdateNews quote c uc).outcome = .json 500 ⟨none, msg, "Fail"⟩) := by
  refine ⟨?_, ?_, ?_, ?_, ?_⟩
  · intro e hb
    rw [FetchNews_of_bind_error quote c uc e hb]
  · intro e hb
    unfold InsertNews UpdateNews
    rw [mutateNews_of_bind_error quote c _ e hb, mutateNews_of_bind_error quote c _ e hb]
    exact ⟨rfl, rfl⟩
  · intro params hb hne hbad
    obtain ⟨seg, k, _, _, he⟩ := convertTopicIDParam_reject params.Topic hne hbad
    rw [FetchNews_of_topic_error quote c uc params _ _ hb he]
    exact ⟨_, rfl⟩
  · intro hid
    obtain ⟨k, hk⟩ := DeleteNews_of_not_parses quote c uc hid
    rw [hk]
    exact ⟨_, rfl⟩
  · intro req n hb hn hid
    obtain ⟨k, hk⟩ := UpdateNews_of_payload_not_parses quote c uc req n hb hn hid
    rw [hk]
    exact ⟨_, rfl⟩

/-- Witness for C6: a query that does not bind, a body that does not bind, the
topic parameter `1,2,x`, `DELETE /news/abc`, and `PUT /news/abc` with a news
payload. -/
theorem validation_error_status_witness :
    (FetchNews sampleQuote (mutationContext "" ⟨some sampleNews, none⟩)
        (succeedingUseCase true)).outcome =
      .json 400 ⟨none, "Request data invalid: no query", "Fail"⟩ ∧
    ((InsertNews sampleQuote (queryContext "7" ⟨10, "", "", ""⟩)
        (succeedingUseCase true)).outcome =
      .json 400 ⟨none, "Request data invalid: no body", "Fail"⟩ ∧
     (UpdateNews sampleQuote (queryContext "7" ⟨10, "", "", ""⟩)
        (succeedingUseCase true)).outcome =
      .json 400 ⟨none, "Request data invalid: no body", "Fail"⟩) ∧
    (∃ msg, (FetchNews sampleQuote (queryContext "" ⟨10, "", "", "1,2,x"⟩)
        (succeedingUseCase true)).outcome = .json 400 ⟨none, msg, "Fail"⟩) ∧
    (∃ msg, (DeleteNews sampleQuote (queryContext "abc" ⟨10, "", "", ""⟩)
        (succeedingUseCase true)).outcome = .json 400 ⟨none, msg, "Fail"⟩) ∧
    (∃ msg, (UpdateNews sampleQuote (mutationContext "abc" ⟨some sampleNews, none⟩)
        (succeedingUseCase true)).outcome = .json 500 ⟨none, msg, "Fail"⟩) :=
  ⟨(validation_error_status sampleQuote (mutationContext "" ⟨some sampleNews, none⟩)
      (succeedingUseCase true)).1 _ rfl,
   (validation_error_status sampleQuote (queryContext "7" ⟨10, "", "", ""⟩)
      (succeedingUseCase true)).2.1 _ rfl,
   (validation_error_status sampleQuote (queryContext "" ⟨10, "", "", "1,2,x"⟩)
      (succeedingUseCase true)).2.2.1 _ rfl (by decide) ⟨"x", by decide, by decide⟩,
   (validation_error_status sampleQuote (queryContext "abc" ⟨10, "", "", ""⟩)
      (succeedingUseCase true)).2.2.2.1 (by decide),
   (validation_error_status sampleQuote (mutationContext "abc" ⟨some sampleNews, none⟩)
      (succeedingUseCase true)).2.2.2.2 _ _ rfl rfl (by decide)⟩

/-- C6 as stated fails: `PUT /news/abc` with a bindable body is a validation
error (the path id is not an integer), yet `UpdateNews` answers with status
500, not 400. -/
theorem UpdateNews_bad_id_is_500 :
    ¬ ParsesAsInt "abc" ∧
    (UpdateNews sampleQuote (mutationContext "abc" ⟨some sampleNews, some [1, 2]⟩)
        (succeedingUseCase true)).status = some 500 ∧
    (UpdateNews sampleQuote (mutationContext "abc" ⟨some sampleNews, some [1, 2]⟩)
        (succeedingUseCase true)).status ≠ some 400 := by
  decide

/-- C7: whenever a handler has called a collaborator operation and that call
returned an error `e`, whatever its kind, the response is a 500 envelope with
`Message` "Fail", no data, and `ErrorMessage` equal to the message of `e`
(`FetchNews`, `InsertNews`, `UpdateNews`, and the pipeline `mutateNews` for
any mutation function that fails with `e`) or to "Delete topic failed: " followed by the message
of `e` (`DeleteNews`). -/
theorem collaborator_error_is_500 (quote : String → String) (c : EchoContext)
    (uc : NewsUseCase) (e : GoError) :
    (∀ ctx p, Event.fetchNewsByParams ctx p ∈ (FetchNews quote c uc).trace →
      (uc.FetchNewsByParams ctx p).2.2 = some e →
      (FetchNews quote c uc).outcome = .json 500 ⟨none, e.Error quote, "Fail"⟩) ∧
    (∀ ctx n, Event.insertNews ctx n ∈ (InsertNews quote c uc).trace →
      (uc.InsertNews ctx n).2 = some e →
      (InsertNews quote c uc).outcome = .json 500 ⟨none, e.Error quote, "Fail"⟩) ∧
    (∀ ctx n, Event.updateNews ctx n ∈ (UpdateNews quote c uc).trace →
      (uc.UpdateNews ctx n).2 = some e →
      (UpdateNews quote c uc).outcome = .json 500 ⟨none, e.Error quote, "Fail"⟩) ∧
    (∀ ctx id, Event.deleteNews ctx id ∈ (DeleteNews quote c uc).trace →
      (uc.DeleteNews ctx id).2 = some e →
      (DeleteNews quote c uc).outcome =
        .json 500 ⟨none, "Delete topic failed: " ++ e.Error quote, "Fail"⟩) ∧
    (∀ (mh : NewsMutationHandler) req n, c.bindMutate = .ok req → req.News = some n →
      (mh (resolveContext c) { n with TopicIDs := req.NewsTopic }).2.2 = some e →
      (mutateNews quote c mh).outcome = .json 500 ⟨none, e.Error quote, "Fail"⟩) := by
  refine ⟨?_, ?_, ?_, ?_, ?_⟩
  · intro ctx p hmem herr
    cases hb : c.bindFetch with
    | error e' =>
      rw [FetchNews_of_bind_error quote c uc e' hb] at hmem
      exact absurd hmem (by simp)
    | ok params =>
      rcases ht : convertTopicIDParam params.Topic with ⟨ids, oe⟩
      cases oe with
      | some err =>
        rw [FetchNews_of_topic_error quote c uc params ids err hb ht] at hmem
        exact absurd hmem (by simp)
      | none =>
        rw [FetchNews_of_topic_ok quote c uc params ids hb ht] at hmem ⊢
        rcases hu : uc.FetchNewsByParams (resolveContext c)
          ⟨some ⟨params.Limit, params.NextCursor⟩, params.Status, ids⟩ with ⟨r, pg, oe⟩
        rw [hu] at hmem
        have hcp : ctx = resolveContext c ∧
            p = ⟨some ⟨params.Limit, params.NextCursor⟩, params.Status, ids⟩ := by
          cases oe <;> simpa using hmem
        rw [hcp.1, hcp.2, hu] at herr
        simp only at herr
        rw [herr]
  · intro ctx n hmem herr
    cases hb : c.bindMutate with
    | error e' =>
      unfold InsertNews at hmem
      rw [mutateNews_of_bind_error quote c _ e' hb] at hmem
      exact absurd hmem (by simp)
    | ok req =>
      cases hn : req.News with
      | none =>
        unfold InsertNews at hmem
        rw [mutateNews_of_nil_payload quote c _ req hb hn] at hmem
        exact absurd hmem (by simp)
      | some n0 =>
        rw [InsertNews_of_payload quote c uc req n0 hb hn] at hmem ⊢
        rcases hu : uc.InsertNews (resolveContext c)
          { n0 with TopicIDs := req.NewsTopic, Status := "draft" } with ⟨r, oe⟩
        rw [hu] at hmem
        have hcn : ctx = resolveContext c ∧
            n = { n0 with TopicIDs := req.NewsTopic, Status := "draft" } := by
          cases oe <;> simpa using hmem
        rw [hcn.1, hcn.2, hu] at herr
        simp only at herr
        rw [herr]
  · intro ctx n hmem herr
    cases hb : c.bindMutate with
    | error e' =>
      unfold UpdateNews at hmem
      rw [mutateNews_of_bind_error quote c _ e' hb] at hmem
      exact absurd hmem (by simp)
    | ok req =>
      cases hn : req.News with
      | none =>
        unfold UpdateNews at hmem
        rw [mutateNews_of_nil_payload quote c _ req hb hn] at hmem
        exact absurd hmem (by simp)
      | some n0 =>
        by_cases hid : ParsesAsInt (c.Param "id")
        · rw [UpdateNews_of_payload_parses quote c uc req n0 hb hn hid] at hmem ⊢
          rcases hu : uc.UpdateNews (resolveContext c)
            { n0 with TopicIDs := req.NewsTopic, ID := numeralValue (c.Param "id") }
            with ⟨r, oe⟩
          rw [hu] at hmem
          have hcn : ctx = resolveContext c ∧
              n = { n0 with TopicIDs := req.NewsTopic,
                            ID := numeralValue (c.Param "id") } := by
            cases oe <;> simpa using hmem
          rw [hcn.1, hcn.2, hu] at herr
          simp only at herr
          rw [herr]
        · obtain ⟨k, hk⟩ := UpdateNews_of_payload_not_parses quote c uc req n0 hb hn hid
          rw [hk] at hmem
          exact absurd hmem (by simp)
  · intro ctx id hmem herr
    by_cases hid : ParsesAsInt (c.Param "id")
    · rw [DeleteNews_of_parses quote c uc hid] at hmem ⊢
      rcases hu : uc.DeleteNews (resolveContext c) (numeralValue (c.Param "id")) with ⟨b, oe⟩
      rw [hu] at hmem
      have hci : ctx = resolveContext c ∧ id = numeralValue (c.Param "id") := by
        cases oe <;> simpa using hmem
      rw [hci.1, hci.2, hu] at herr
      simp only at herr
      rw [herr]
    · obtain ⟨k, hk⟩ := DeleteNews_of_not_parses quote c uc hid
      rw [hk] at hmem
      exact absurd hmem (by simp)
  · intro mh req n hb hn herr
    rcases hm : mh (resolveContext c) { n with TopicIDs := req.NewsTopic } with ⟨calls, r, oe⟩
    rw [hm] at herr
    simp only at herr
    rw [herr] at hm
    rw [mutateNews_of_mutation_error quote c mh req n calls r e hb hn hm]

/-- Witness for C7: a collaborator that fails every operation with the message
"db down", on a fetch, a create, an update and a delete request. -/
theorem collaborator_error_is_500_witness :
    (FetchNews sampleQuote (queryContext "" ⟨10, "", "draft", "1,2"⟩)
        (failingUseCase (.app 3 "db down"))).outcome =
      .json 500 ⟨none, "db down", "Fail"⟩ ∧
    (InsertNews sampleQuote (mutationContext "" ⟨some sampleNews, some [1, 2]⟩)
        (failingUseCase (.app 3 "db down"))).outcome =
      .json 500 ⟨none, "db down", "Fail"⟩ ∧
    (UpdateNews sampleQuote (mutationContext "42" ⟨some sampleNews, some [1, 2]⟩)
        (failingUseCase (.app 3 "db down"))).outcome =
      .json 500 ⟨none, "db down", "Fail"⟩ ∧
    (DeleteNews sampleQuote (queryContext "42" ⟨10, "", "", ""⟩)
        (failingUseCase (.app 3 "db down"))).outcome =
      .json 500 ⟨none, "Delete topic failed: db down", "Fail"⟩ :=
  ⟨(collaborator_error_is_500 sampleQuote (queryContext "" ⟨10, "", "draft", "1,2"⟩)
      (failingUseCase (.app 3 "db down")) (.app 3 "db down")).1
      (.request 1) ⟨some ⟨10, ""⟩, "draft", some [1, 2]⟩ (by decide) rfl,
   (collaborator_error_is_500 sampleQuote (mutationContext "" ⟨some sampleNews, some [1, 2]⟩)
      (failingUseCase (.app 3 "db down")) (.app 3 "db down")).2.1
      (.request 1) ⟨0, "draft", some [1, 2], "A"⟩ (by decide) rfl,
   (collaborator_error_is_500 sampleQuote (mutationContext "42" ⟨some sampleNews, some [1, 2]⟩)
      (failingUseCase (.app 3 "db down")) (.app 3 "db down")).2.2.1
      (.request 1) ⟨42, "published", some [1, 2], "A"⟩ (by decide) rfl,
   (collaborator_error_is_500 sampleQuote (queryContext "42" ⟨10, "", "", ""⟩)
      (failingUseCase (.app 3 "db down")) (.app 3 "db down")).2.2.2.1
      (.request 1) 42 (by decide) rfl⟩

/-- C8: when the path id of a delete request is an integer numeral in range
and the collaborator's `DeleteNews`, called with the request context and the
parsed id, returns `(b, nil)`, the handler makes exactly that one call and
answers 200 with `Message` "OK", an empty `ErrorMessage` and data
`isSuccess = b`, for `b` false as well as true. -/
theorem DeleteNews_success (quote : String → String) (c : EchoContext) (uc : NewsUseCase)
    (b : Bool) (hid : ParsesAsInt (c.Param "id"))
    (hd : uc.DeleteNews (resolveContext c) (numeralValue (c.Param "id")) = (b, none)) :
    DeleteNews quote c uc =
      ⟨[.deleteNews (resolveContext c) (numeralValue (c.Param "id"))],
        .json 200 ⟨some (.deleteNewsResponse b), "", "OK"⟩⟩ := by
  rw [DeleteNews_of_parses quote c uc hid, hd]

/-- Witness for C8: `DELETE /news/42` with the collaborator returning
`(true, nil)` and `(false, nil)`. -/
theorem DeleteNews_success_witness :
    DeleteNews sampleQuote (queryContext "42" ⟨10, "", "", ""⟩) (succeedingUseCase true) =
      ⟨[.deleteNews (.request 1) 42],
        .json 200 ⟨some (.deleteNewsResponse true), "", "OK"⟩⟩ ∧
    DeleteNews sampleQuote (queryContext "42" ⟨10, "", "", ""⟩) (succeedingUseCase false) =
      ⟨[.deleteNews (.request 1) 42],
        .json 200 ⟨some (.deleteNewsResponse false), "", "OK"⟩⟩ :=
  ⟨DeleteNews_success sampleQuote (queryContext "42" ⟨10, "", "", ""⟩)
      (succeedingUseCase true) true (by decide) rfl,
   DeleteNews_success sampleQuote (queryContext "42" ⟨10, "", "", ""⟩)
      (succeedingUseCase false) false (by decide) rfl⟩

theorem mutateNews_trace_of_400 (quote : String → String) (c : EchoContext)
    (mh : NewsMutationHandler) (h : (mutateNews quote c mh).status = some 400) :
    (mutateNews quote c mh).trace = [] := by
  cases hb : c.bindMutate with
  | error e => rw [mutateNews_of_bind_error quote c mh e hb]
  | ok req =>
    cases hn : req.News with
    | none => rw [mutateNews_of_nil_payload quote c mh req hb hn]
    | some n =>
      rcases hm : mh (resolveContext c) { n with TopicIDs := req.NewsTopic } with
        ⟨calls, r, oe⟩
      cases oe with
      | none =>
        rw [mutateNews_of_mutation_ok quote c mh req n calls r hb hn hm] at h
        simp [Run.status] at h
      | some e =>
        rw [mutateNews_of_mutation_error quote c mh req n calls r e hb hn hm] at h
        simp [Run.status] at h

theorem FetchNews_trace_of_400 (quote : String → String) (c : EchoContext)
    (uc : NewsUseCase) (h : (FetchNews quote c uc).status = some 400) :
    (FetchNews quote c uc).trace = [] := by
  cases hb : c.bindFetch with
  | error e => rw [FetchNews_of_bind_error quote c uc e hb]
  | ok params =>
    rcases ht : convertTopicIDParam params.Topic with ⟨ids, oe⟩
    cases oe with
    | some err => rw [FetchNews_of_topic_error quote c uc params ids err hb ht]
    | none =>
      rw [FetchNews_of_topic_ok quote c uc params ids hb ht] at h
      rcases hu : uc.FetchNewsByParams (resolveContext c)
        ⟨some ⟨params.Limit, params.NextCursor⟩, params.Status, ids⟩ with ⟨r, pg, oe⟩
      rw [hu] at h
      cases oe <;> simp [Run.status] at h

theorem DeleteNews_trace_of_400 (quote : String → String) (c : EchoContext)
    (uc : NewsUseCase) (h : (DeleteNews quote c uc).status = some 400) :
    (DeleteNews quote c uc).trace = [] := by
  by_cases hid : ParsesAsInt (c.Param "id")
  · rw [DeleteNews_of_parses quote c uc hid] at h
    rcases hu : uc.DeleteNews (resolveContext c) (numeralValue (c.Param "id")) with ⟨b, oe⟩
    rw [hu] at h
    cases oe <;> simp [Run.status] at h
  · obtain ⟨k, hk⟩ := DeleteNews_of_not_parses quote c uc hid
    rw [hk]

/-- C9: a handler run that answers with status 400 has an empty trace: no
collaborator operation (and no mutation function) was invoked. In particular
a body that does not bind never reaches the mutation function, a topic
parameter with a segment that is not an integer never reaches
`FetchNewsByParams`, and a path id that is not an integer never reaches the
collaborator's `DeleteNews`. -/
theorem no_call_on_400 (quote : String → String) (c : EchoContext) (uc : NewsUseCase) :
    ((FetchNews quote c uc).status = some 400 → (FetchNews quote c uc).trace = []) ∧
    ((InsertNews quote c uc).status = some 400 → (InsertNews quote c uc).trace = []) ∧
    ((UpdateNews quote c uc).status = some 400 → (UpdateNews quote c uc).trace = []) ∧
    ((DeleteNews quote c uc).status = some 400 → (DeleteNews quote c uc).trace = []) ∧
    (∀ (mh : NewsMutationHandler) e, c.bindMutate = .error e →
      (mutateNews quote c mh).status = some 400 ∧ (mutateNews quote c mh).trace = []) ∧
    (∀ params, c.bindFetch = .ok params → params.Topic ≠ "" →
      (∃ seg ∈ Split params.Topic ',', ¬ ParsesAsInt seg) →
      (FetchNews quote c uc).status = some 400 ∧ (FetchNews quote c uc).trace = []) ∧
    (¬ ParsesAsInt (c.Param "id") →
      (DeleteNews quote c uc).status = some 400 ∧ (DeleteNews quote c uc).trace = []) := by
  refine ⟨FetchNews_trace_of_400 quote c uc, mutateNews_trace_of_400 quote c _,
    mutateNews_trace_of_400 quote c _, DeleteNews_trace_of_400 quote c uc, ?_, ?_, ?_⟩
  · intro mh e hb
    rw [mutateNews_of_bind_error quote c mh e hb]
    exact ⟨rfl, rfl⟩
  · intro params hb hne hbad
    obtain ⟨seg, k, _, _, he⟩ := convertTopicIDParam_reject params.Topic hne hbad
    rw [FetchNews_of_topic_error quote c uc params _ _ hb he]
    exact ⟨rfl, rfl⟩
  · intro hid
    obtain ⟨k, hk⟩ := DeleteNews_of_not_parses quote c uc hid
    rw [hk]
    exact ⟨rfl, rfl⟩

/-- Witness for C9: `GET /news?topic=1,2,x`, `DELETE /news/abc` and a create
request whose body does not bind all answer 400 without a call. -/
theorem no_call_on_400_witness :
    (FetchNews sampleQuote (queryContext "" ⟨10, "", "", "1,2,x"⟩)
        (succeedingUseCase true)).trace = [] ∧
    (DeleteNews sampleQuote (queryContext "abc" ⟨10, "", "", ""⟩)
        (succeedingUseCase true)).trace = [] ∧
    (InsertNews sampleQuote (queryContext "" ⟨10, "", "", ""⟩)
        (succeedingUseCase true)).trace = [] :=
  ⟨(no_call_on_400 sampleQuote (queryContext "" ⟨10, "", "", "1,2,x"⟩)
      (succeedingUseCase true)).1 (by decide),
   (no_call_on_400 sampleQuote (queryContext "abc" ⟨10, "", "", ""⟩)
      (succeedingUseCase true)).2.2.2.1 (by decide),
   (no_call_on_400 sampleQuote (queryContext "" ⟨10, "", "", ""⟩)
      (succeedingUseCase true)).2.1 (by decide)⟩

end NewsHandler
